import Mathlib

/-!
Verification development for the base view class of a Backbone-style
component framework (source: src/js/view/base/View.js).

The file shallowly embeds the lifecycle operations of the base view
(render, clear, show, hide, disable, enable, destroy), the template
binder (setTemplate, setData), the child materialisation step
(_createItems), the child lookup accessor (getItem), the element
resolution helper (_updateEl) and the identifier allocator (_id).

External collaborators (jQuery element resolution, the underscore
templating engine, the N13 namespace resolver, Backbone event
triggering) are not part of the repository source; they are modelled
from the specification as an explicit environment structure and as
small helper functions, each marked in its documentation.
-/

namespace ViewSpec

/-- JavaScript runtime values, as far as the base view inspects them:
the view distinguishes undefined, null, booleans, numbers, strings and
plain objects (used for template data mappings and hook results). -/
inductive JSVal where
  | undef
  | jsNull
  | bool (b : Bool)
  | num (n : Int)
  | str (s : String)
  | obj (fields : List (String × String))
deriving DecidableEq, Repr

/-- Modelled from the spec: JavaScript truthiness, used by the source in
conditions such as `if (!this.elPath)` and `if (Tpl)`. -/
def jsTruthy : JSVal → Bool
  | .undef => false
  | .jsNull => false
  | .bool b => b
  | .num n => n != 0
  | .str s => s != ""
  | .obj _ => true

/-- Modelled from the spec: the N13.isString helper of the external class
library (true exactly for string values). -/
def isString : JSVal → Bool
  | .str _ => true
  | _ => false

/-- Modelled from the spec: the N13.isObject helper of the external class
library (true exactly for key/value mappings; null is not an object in
this sense, which is what the render-time data validation relies on). -/
def isObject : JSVal → Bool
  | .obj _ => true
  | _ => false

/-- Modelled from the spec: JavaScript string coercion as performed by
the + operator when one operand is a string (used by the source when it
builds namespace keys and error messages). -/
def jsToString : JSVal → String
  | .undef => "undefined"
  | .jsNull => "null"
  | .bool true => "true"
  | .bool false => "false"
  | .num n => toString n
  | .str s => s
  | .obj _ => "[object Object]"

/-- Approval test of the cancellable-hook pattern: the source accepts a
hook result with `approved === undefined || approved === true`. -/
def hookApproves (v : JSVal) : Bool :=
  v = JSVal.undef || v = JSVal.bool true

/-- Markup chunk produced by the templating collaborator: carries its
text and the class names of the placeholder tags it contains, in
document order (this is what `el.find` with the container class
inspects). -/
structure Markup where
  html : String
  slots : List String
deriving DecidableEq, Repr

/-- Modelled from the spec: a jQuery selection handle. It carries the
number of matched DOM nodes (`.length`), the current CSS display value
of the matched node and the list of markup chunks appended so far (the
element children). -/
structure El where
  len : Nat
  display : String
  content : List Markup
deriving DecidableEq, Repr

/-- Number of placeholder tags with the given class inside the element
content, in document order: the model of `el.find('.' + cls).length`. -/
def El.findCount (e : El) (cls : String) : Nat :=
  (e.content.map (fun m => (m.slots.filter (fun c => c = cls)).length)).sum

/-- Modelled from the spec: a template class as resolved by the
namespace resolver; it exposes named static properties, one of which
(`templateDataProp`) carries the literal template string. -/
structure TplClass where
  props : List (String × JSVal)
deriving DecidableEq, Repr

/-- Property lookup on a template class: a missing property reads as
undefined, as in JavaScript. -/
def TplClass.getProp (t : TplClass) (p : String) : JSVal :=
  match t.props.find? (fun kv => kv.fst = p) with
  | some kv => kv.snd
  | none => JSVal.undef

/-- Configuration of one view instance, mirroring the configs block of
the source plus the class name assigned by the class system. The
beforeXRet fields model the value returned by the corresponding
overridable onBeforeX hook (the base class hooks are empty functions
returning undefined; subclasses may return anything). -/
structure Cfg where
  className : String
  elPath : JSVal
  autoIncrementId : String
  containerCls : String
  template : JSVal
  templateNs : String
  templateDataProp : String
  viewNs : String
  itemId : Option String
  beforeRenderRet : JSVal
  beforeClearRet : JSVal
  beforeShowRet : JSVal
  beforeHideRet : JSVal
  beforeDisableRet : JSVal
  beforeEnableRet : JSVal
  beforeDestroyRet : JSVal
deriving DecidableEq, Repr

/-- Mutable per-instance state of a view: the private fields _tpl,
_templateData, _displayCssValue and _initEvents together with the
public fields rendered and el. -/
structure St where
  tpl : JSVal
  templateData : JSVal
  displayCssValue : String
  rendered : Bool
  el : Option El
  initEvents : Bool
deriving DecidableEq, Repr

/-- Field initialisation performed by initPrivates and initPublics of
the source: _tpl starts as the empty string, _templateData as null,
_displayCssValue as the string block, rendered as false, el as null. -/
def initialSt : St :=
  { tpl := JSVal.str ""
    templateData := JSVal.jsNull
    displayCssValue := "block"
    rendered := false
    el := none
    initEvents := false }

mutual
/-- A view instance: configuration, state and the items property. -/
inductive View where
  | mk (cfg : Cfg) (st : St) (items : Items)

/-- The items property of a view after construction: either null (no
declared children, never materialised into an array) or an array of
slots. -/
inductive Items where
  | jsNull : Items
  | arr (l : Slots) : Items

/-- A JavaScript array of child slots. -/
inductive Slots where
  | nil : Slots
  | cons (s : Slot) (tl : Slots) : Slots

/-- One array slot: a live child view, or the hole left behind by the
delete operator during destroy. -/
inductive Slot where
  | live (v : View) : Slot
  | hole : Slot
end

def View.cfgOf : View → Cfg
  | .mk c _ _ => c

def View.stOf : View → St
  | .mk _ s _ => s

def View.itemsOf : View → Items
  | .mk _ _ i => i

/-- Number of slots in a slot array (the array length: holes count,
exactly as in JavaScript). -/
def Slots.length : Slots → Nat
  | .nil => 0
  | .cons _ tl => Slots.length tl + 1

/-- Conversion from a Lean list of views to a slot array of live
children. -/
def Slots.ofViews : List View → Slots
  | [] => Slots.nil
  | v :: tl => Slots.cons (Slot.live v) (Slots.ofViews tl)

/-- True when every slot of the array is a hole. -/
def Slots.allHoles : Slots → Bool
  | .nil => true
  | .cons (Slot.live _) _ => false
  | .cons Slot.hole tl => Slots.allHoles tl

/-- Observable events: notifications emitted through trigger, plus the
DOM-side effects whose ordering the specification talks about. -/
inductive Ev where
  | trig (cls : String) (name : String) (msg : String)
  | delegate (cls : String)
  | undelegate (cls : String)
  | elOff (cls : String)
  | childrenRemove (cls : String)
  | attrId (cls : String) (idx : Nat) (assigned : Option String)
  | observeOff (cls : String)
deriving DecidableEq, Repr

/-- Outcome of a JavaScript call: normal completion with a value, or a
thrown exception carrying a message. -/
inductive JsOutcome (α : Type) where
  | norm (a : α)
  | thrown (msg : String)
deriving DecidableEq, Repr

/-- Return value of render: the view itself, or the literal false. -/
inductive RRet where
  | rself
  | rfalse
deriving DecidableEq, Repr

/-- Modelled from the spec: the external collaborators consumed by the
view through narrow contracts. query models the jQuery dollar function
(it may throw on an invalid selector), tplClass models the namespace
resolver applied to the template namespace, engine models the
underscore templating function (it may throw with a message), viewCtor
models the namespace resolver applied to the view namespace followed by
construction (the resulting instance receives the per-child itemId of
its configuration, when one is given). -/
structure Env where
  query : JSVal → Except String El
  tplClass : String → Option TplClass
  engine : String → JSVal → Except String Markup
  viewCtor : String → Option (Option String → View)

/-- True when the el handle is null or matches no DOM node, the test
`!this.el || !this.el.length` of the source. -/
def elMissing : Option El → Bool
  | none => true
  | some e => e.len = 0

/-- Length of a possibly null el handle. -/
def elLen : Option El → Nat
  | none => 0
  | some e => e.len

/-- Result of the _updateEl helper: updated state, emitted events and an
optional uncaught exception (the second branch of the source resolves
the container query outside any try block). -/
structure UpdRes where
  st : St
  log : List Ev
  thrownMsg : Option String
deriving Repr

/-- Embedding of _updateEl (source lines 680 to 714): resolves this.el
from the container query or from elPath, reports an invalid selector
and duplicate matches through error notifications, and manages event
delegation bookkeeping. -/
def updateEl (env : Env) (cfg : Cfg) (st : St) (cq : JSVal) : UpdRes :=
  if elMissing st.el then
    let attempt :=
      if isString cq then env.query cq
      else env.query (if cfg.elPath = JSVal.str cfg.autoIncrementId then JSVal.jsNull else cfg.elPath)
    let resolved :=
      match attempt with
      | .ok e => (some e, ([] : List Ev))
      | .error _ =>
          (st.el,
           [Ev.trig cfg.className "error"
             ("Invalid elPath CSS query for view \"" ++ cfg.className ++ "\". elPath: \"" ++
              jsToString cfg.elPath ++ "\"")])
    let el1 := resolved.fst
    let log1 := resolved.snd ++
      (if elLen el1 > 1 then
        [Ev.trig cfg.className "error" ("Found duplicate ids for view \"" ++ cfg.className ++ "\"")]
       else [])
    if elMissing el1 then
      { st := { st with el := el1, initEvents := true }, log := log1, thrownMsg := none }
    else if st.initEvents then
      { st := { st with el := el1 }, log := log1 ++ [Ev.delegate cfg.className], thrownMsg := none }
    else
      { st := { st with el := el1 }, log := log1, thrownMsg := none }
  else if isString cq then
    match env.query cq with
    | .ok e => { st := { st with el := some e }, log := [], thrownMsg := none }
    | .error m => { st := st, log := [], thrownMsg := some m }
  else
    { st := st, log := [], thrownMsg := none }

/-- Embedding of setTemplate (source lines 601 to 607): resolves the
template name inside the template namespace; when found, captures the
configured data property as the template string, otherwise leaves the
previous template string untouched. -/
def setTemplate (env : Env) (cfg : Cfg) (st : St) (template : JSVal) : St :=
  match env.tplClass (cfg.templateNs ++ "." ++ jsToString template) with
  | some tpl => { st with tpl := tpl.getProp cfg.templateDataProp }
  | none => st

/-- Embedding of setData (source lines 613 to 615). -/
def setData (st : St) (data : JSVal) : St :=
  { st with templateData := data }

/-- State of a freshly constructed view: the instance field setup of
initPrivates and initPublics followed by the setTemplate call performed
by afterInit with the configured template name. -/
def constructedSt (env : Env) (cfg : Cfg) : St :=
  setTemplate env cfg initialSt cfg.template

/-- Slot read for the numeric branch of getItem: a negative index, an
index past the end and a hole all read as undefined, which the source
coerces to null with the or-null pattern. -/
def slotGet : Slots → Int → Option View
  | .nil, _ => none
  | .cons (Slot.live v) _, (0 : Int) => some v
  | .cons Slot.hole _, (0 : Int) => none
  | .cons _ tl, n => if n ≤ 0 then none else slotGet tl (n - 1)

/-- Lookup in one of the two child indexes (plain JavaScript object used
as a map). -/
def mapLookup (m : List (String × View)) (k : String) : Option View :=
  match m.find? (fun kv => kv.fst = k) with
  | some kv => some kv.snd
  | none => none

/-- Embedding of getItem (source lines 631 to 639): a string key is
looked up in the itemId index first and the type-key index second; a
numeric key indexes directly into this.items, which throws when items
is still null; any other key shape returns null. -/
def getItem (itemIdMap viewMap : List (String × View)) (items : Items) (id : JSVal) :
    JsOutcome (Option View) :=
  if isString id then
    match id with
    | .str s =>
        JsOutcome.norm
          (match mapLookup itemIdMap s with
           | some v => some v
           | none => mapLookup viewMap s)
    | _ => JsOutcome.norm none
  else
    match id with
    | .num n =>
        match items with
        | .jsNull => JsOutcome.thrown "TypeError: cannot read a property of null"
        | .arr l => JsOutcome.norm (slotGet l n)
    | _ => JsOutcome.norm none

mutual
/-- Structural size of a view tree, invariant under every lifecycle
operation (they rewrite state fields, never the tree shape). -/
def View.shape : View → Nat
  | .mk _ _ items => Items.shape items + 1

def Items.shape : Items → Nat
  | .jsNull => 0
  | .arr l => Slots.shape l + 1

def Slots.shape : Slots → Nat
  | .nil => 0
  | .cons s tl => Slot.shape s + Slots.shape tl + 1

def Slot.shape : Slot → Nat
  | .live v => View.shape v + 1
  | .hole => 0
end

/-- Result of a lifecycle operation on one view. -/
structure StepRes where
  view : View
  log : List Ev
  out : JsOutcome Unit

/-- Result of a lifecycle loop over a slot array. -/
structure SlotsRes where
  slots : Slots
  log : List Ev
  out : JsOutcome Unit

/-- Tail of the approved clear transition, after the child loop: detach
listeners from the element and its children (when the element is not
null), remove the element children from the DOM, reset the rendered
flag, run the after hook and emit the clear notification. -/
def clearFinish (cfg : Cfg) (st : St) (items1 : Items) (logPrefix : List Ev) : StepRes :=
  let elStep :=
    match st.el with
    | some e =>
        ({ st with el := some { e with content := [] } },
         [Ev.elOff cfg.className, Ev.childrenRemove cfg.className])
    | none => (st, ([] : List Ev))
  let st2 := { elStep.fst with rendered := false }
  StepRes.mk (View.mk cfg st2 items1)
    (logPrefix ++ elStep.snd ++ [Ev.trig cfg.className "clear" ""])
    (JsOutcome.norm ())

mutual
/-- Embedding of clear (source lines 423 to 454): a no-op unless
rendered; after the cancellable hook, clears every child first, then
detaches listeners from the element and its children, removes those
children from the DOM and resets the rendered flag. -/
def clearV : View → StepRes
  | .mk cfg st items =>
    if st.rendered then
      let log0 := [Ev.trig cfg.className "beforeclear" ""]
      if hookApproves cfg.beforeClearRet then
        match items with
        | Items.jsNull => clearFinish cfg st Items.jsNull log0
        | Items.arr l =>
          let loop := clearSlots l
          match loop.out with
          | JsOutcome.thrown m =>
              StepRes.mk (View.mk cfg st (Items.arr loop.slots)) (log0 ++ loop.log)
                (JsOutcome.thrown m)
          | JsOutcome.norm _ => clearFinish cfg st (Items.arr loop.slots) (log0 ++ loop.log)
      else
        StepRes.mk (View.mk cfg st items) log0 (JsOutcome.norm ())
    else
      StepRes.mk (View.mk cfg st items) [] (JsOutcome.norm ())

/-- Loop body of clear over the items array: a hole makes the method
call throw, a thrown child exception aborts the loop. -/
def clearSlots : Slots → SlotsRes
  | Slots.nil => SlotsRes.mk Slots.nil [] (JsOutcome.norm ())
  | Slots.cons (Slot.live v) tl =>
    let r := clearV v
    match r.out with
    | JsOutcome.norm _ =>
        let rest := clearSlots tl
        SlotsRes.mk (Slots.cons (Slot.live r.view) rest.slots) (r.log ++ rest.log) rest.out
    | JsOutcome.thrown m =>
        SlotsRes.mk (Slots.cons (Slot.live r.view) tl) r.log (JsOutcome.thrown m)
  | Slots.cons Slot.hole tl =>
    SlotsRes.mk (Slots.cons Slot.hole tl) []
      (JsOutcome.thrown "TypeError: items[i].clear is not a function")
end

mutual
/-- Embedding of show (source lines 459 to 480): a no-op unless
rendered; after the cancellable hook, shows every child first, then
restores the display CSS property of the own element to the captured
display value. -/
def showV : View → StepRes
  | .mk cfg st items =>
    if st.rendered then
      let log0 := [Ev.trig cfg.className "beforeshow" ""]
      if hookApproves cfg.beforeShowRet then
        match items with
        | Items.jsNull =>
          match st.el with
          | none =>
              StepRes.mk (View.mk cfg st Items.jsNull) log0
                (JsOutcome.thrown "TypeError: cannot read a property of null")
          | some e =>
              StepRes.mk
                (View.mk cfg { st with el := some { e with display := st.displayCssValue } }
                  Items.jsNull)
                (log0 ++ [Ev.trig cfg.className "show" ""]) (JsOutcome.norm ())
        | Items.arr l =>
          let loop := showSlots l
          match loop.out with
          | JsOutcome.thrown m =>
              StepRes.mk (View.mk cfg st (Items.arr loop.slots)) (log0 ++ loop.log)
                (JsOutcome.thrown m)
          | JsOutcome.norm _ =>
            match st.el with
            | none =>
                StepRes.mk (View.mk cfg st (Items.arr loop.slots)) (log0 ++ loop.log)
                  (JsOutcome.thrown "TypeError: cannot read a property of null")
            | some e =>
                StepRes.mk
                  (View.mk cfg { st with el := some { e with display := st.displayCssValue } }
                    (Items.arr loop.slots))
                  (log0 ++ loop.log ++ [Ev.trig cfg.className "show" ""]) (JsOutcome.norm ())
      else
        StepRes.mk (View.mk cfg st items) log0 (JsOutcome.norm ())
    else
      StepRes.mk (View.mk cfg st items) [] (JsOutcome.norm ())

/-- Loop body of show over the items array. -/
def showSlots : Slots → SlotsRes
  | Slots.nil => SlotsRes.mk Slots.nil [] (JsOutcome.norm ())
  | Slots.cons (Slot.live v) tl =>
    let r := showV v
    match r.out with
    | JsOutcome.norm _ =>
        let rest := showSlots tl
        SlotsRes.mk (Slots.cons (Slot.live r.view) rest.slots) (r.log ++ rest.log) rest.out
    | JsOutcome.thrown m =>
        SlotsRes.mk (Slots.cons (Slot.live r.view) tl) r.log (JsOutcome.thrown m)
  | Slots.cons Slot.hole tl =>
    SlotsRes.mk (Slots.cons Slot.hole tl) []
      (JsOutcome.thrown "TypeError: items[i].show is not a function")
end

mutual
/-- Embedding of hide (source lines 485 to 507): a no-op unless
rendered; after the cancellable hook, hides every child first, then
captures the current display CSS value into _displayCssValue and blanks
the display property with the value none. -/
def hideV : View → StepRes
  | .mk cfg st items =>
    if st.rendered then
      let log0 := [Ev.trig cfg.className "beforehide" ""]
      if hookApproves cfg.beforeHideRet then
        match items with
        | Items.jsNull =>
          match st.el with
          | none =>
              StepRes.mk (View.mk cfg st Items.jsNull) log0
                (JsOutcome.thrown "TypeError: cannot read a property of null")
          | some e =>
              StepRes.mk
                (View.mk cfg
                  { st with displayCssValue := e.display, el := some { e with display := "none" } }
                  Items.jsNull)
                (log0 ++ [Ev.trig cfg.className "hide" ""]) (JsOutcome.norm ())
        | Items.arr l =>
          let loop := hideSlots l
          match loop.out with
          | JsOutcome.thrown m =>
              StepRes.mk (View.mk cfg st (Items.arr loop.slots)) (log0 ++ loop.log)
                (JsOutcome.thrown m)
          | JsOutcome.norm _ =>
            match st.el with
            | none =>
                StepRes.mk (View.mk cfg st (Items.arr loop.slots)) (log0 ++ loop.log)
                  (JsOutcome.thrown "TypeError: cannot read a property of null")
            | some e =>
                StepRes.mk
                  (View.mk cfg
                    { st with displayCssValue := e.display,
                              el := some { e with display := "none" } }
                    (Items.arr loop.slots))
                  (log0 ++ loop.log ++ [Ev.trig cfg.className "hide" ""]) (JsOutcome.norm ())
      else
        StepRes.mk (View.mk cfg st items) log0 (JsOutcome.norm ())
    else
      StepRes.mk (View.mk cfg st items) [] (JsOutcome.norm ())

/-- Loop body of hide over the items array. -/
def hideSlots : Slots → SlotsRes
  | Slots.nil => SlotsRes.mk Slots.nil [] (JsOutcome.norm ())
  | Slots.cons (Slot.live v) tl =>
    let r := hideV v
    match r.out with
    | JsOutcome.norm _ =>
        let rest := hideSlots tl
        SlotsRes.mk (Slots.cons (Slot.live r.view) rest.slots) (r.log ++ rest.log) rest.out
    | JsOutcome.thrown m =>
        SlotsRes.mk (Slots.cons (Slot.live r.view) tl) r.log (JsOutcome.thrown m)
  | Slots.cons Slot.hole tl =>
    SlotsRes.mk (Slots.cons Slot.hole tl) []
      (JsOutcome.thrown "TypeError: items[i].hide is not a function")
end

mutual
/-- Embedding of disable (source lines 512 to 532): a no-op unless
rendered; after the cancellable hook, disables every child first, then
runs the after hook and emits the disable notification. -/
def disableV : View → StepRes
  | .mk cfg st items =>
    if st.rendered then
      let log0 := [Ev.trig cfg.className "beforedisable" ""]
      if hookApproves cfg.beforeDisableRet then
        match items with
        | Items.jsNull =>
            StepRes.mk (View.mk cfg st Items.jsNull)
              (log0 ++ [Ev.trig cfg.className "disable" ""]) (JsOutcome.norm ())
        | Items.arr l =>
          let loop := disableSlots l
          match loop.out with
          | JsOutcome.thrown m =>
              StepRes.mk (View.mk cfg st (Items.arr loop.slots)) (log0 ++ loop.log)
                (JsOutcome.thrown m)
          | JsOutcome.norm _ =>
              StepRes.mk (View.mk cfg st (Items.arr loop.slots))
                (log0 ++ loop.log ++ [Ev.trig cfg.className "disable" ""]) (JsOutcome.norm ())
      else
        StepRes.mk (View.mk cfg st items) log0 (JsOutcome.norm ())
    else
      StepRes.mk (View.mk cfg st items) [] (JsOutcome.norm ())

/-- Loop body of disable over the items array. -/
def disableSlots : Slots → SlotsRes
  | Slots.nil => SlotsRes.mk Slots.nil [] (JsOutcome.norm ())
  | Slots.cons (Slot.live v) tl =>
    let r := disableV v
    match r.out with
    | JsOutcome.norm _ =>
        let rest := disableSlots tl
        SlotsRes.mk (Slots.cons (Slot.live r.view) rest.slots) (r.log ++ rest.log) rest.out
    | JsOutcome.thrown m =>
        SlotsRes.mk (Slots.cons (Slot.live r.view) tl) r.log (JsOutcome.thrown m)
  | Slots.cons Slot.hole tl =>
    SlotsRes.mk (Slots.cons Slot.hole tl) []
      (JsOutcome.thrown "TypeError: items[i].disable is not a function")
end

mutual
/-- Embedding of enable (source lines 537 to 557): a no-op unless
rendered; the opaque cssPaths argument is forwarded to the hooks only;
after the cancellable hook, enables every child first (without
arguments), then runs the after hook and emits the enable
notification. -/
def enableV : View → JSVal → StepRes
  | .mk cfg st items, _cssPaths =>
    if st.rendered then
      let log0 := [Ev.trig cfg.className "beforeenable" ""]
      if hookApproves cfg.beforeEnableRet then
        match items with
        | Items.jsNull =>
            StepRes.mk (View.mk cfg st Items.jsNull)
              (log0 ++ [Ev.trig cfg.className "enable" ""]) (JsOutcome.norm ())
        | Items.arr l =>
          let loop := enableSlots l
          match loop.out with
          | JsOutcome.thrown m =>
              StepRes.mk (View.mk cfg st (Items.arr loop.slots)) (log0 ++ loop.log)
                (JsOutcome.thrown m)
          | JsOutcome.norm _ =>
              StepRes.mk (View.mk cfg st (Items.arr loop.slots))
                (log0 ++ loop.log ++ [Ev.trig cfg.className "enable" ""]) (JsOutcome.norm ())
      else
        StepRes.mk (View.mk cfg st items) log0 (JsOutcome.norm ())
    else
      StepRes.mk (View.mk cfg st items) [] (JsOutcome.norm ())

/-- Loop body of enable over the items array: the child call passes no
argument, so the child hooks observe undefined. -/
def enableSlots : Slots → SlotsRes
  | Slots.nil => SlotsRes.mk Slots.nil [] (JsOutcome.norm ())
  | Slots.cons (Slot.live v) tl =>
    let r := enableV v JSVal.undef
    match r.out with
    | JsOutcome.norm _ =>
        let rest := enableSlots tl
        SlotsRes.mk (Slots.cons (Slot.live r.view) rest.slots) (r.log ++ rest.log) rest.out
    | JsOutcome.thrown m =>
        SlotsRes.mk (Slots.cons (Slot.live r.view) tl) r.log (JsOutcome.thrown m)
  | Slots.cons Slot.hole tl =>
    SlotsRes.mk (Slots.cons Slot.hole tl) []
      (JsOutcome.thrown "TypeError: items[i].enable is not a function")
end

mutual
/-- Clearing a view never changes the shape of the tree (only state
fields are rewritten), which justifies the termination of render and
destroy below. -/
theorem clearV_shape : (v : View) → View.shape (clearV v).view = View.shape v
  | View.mk cfg st items => by
    cases items with
    | jsNull =>
        simp only [clearV, clearFinish]
        split <;> [skip; rfl]
        split <;> [skip; rfl]
        split <;> rfl
    | arr l =>
        have ih := clearSlots_shape l
        simp only [clearV, clearFinish]
        split <;> [skip; rfl]
        split
        · split <;> simp [View.shape, Items.shape, ih]
        · rfl

theorem clearSlots_shape : (l : Slots) → Slots.shape (clearSlots l).slots = Slots.shape l
  | Slots.nil => rfl
  | Slots.cons (Slot.live v) tl => by
    have ih1 := clearV_shape v
    have ih2 := clearSlots_shape tl
    simp only [clearSlots]
    split <;> simp [Slots.shape, Slot.shape, ih1, ih2]
  | Slots.cons Slot.hole tl => rfl
end

theorem View.shape_eq (v : View) : View.shape v = Items.shape v.itemsOf + 1 := by
  cases v
  rfl

/-- Termination helper: the slot array found on a view returned by
clear is strictly smaller than the cleared view itself. -/
theorem clearV_items_shape (v : View) (v1 : View) (cllog : List Ev) (clout : JsOutcome Unit)
    (l : Slots) (hcl : clearV v = StepRes.mk v1 cllog clout) (hit : v1.itemsOf = Items.arr l) :
    Slots.shape l < View.shape v := by
  have h1 := clearV_shape v
  rw [hcl] at h1
  dsimp only at h1
  have h2 := View.shape_eq v1
  rw [hit] at h2
  simp only [Items.shape] at h2
  omega

mutual
/-- Embedding of destroy (source lines 563 to 594): after the
cancellable hook, detaches the observer wiring, clears the DOM content,
destroys every child in declaration order deleting each array slot
afterwards, then undelegates the own DOM event bindings, runs the after
hook and emits the destroy notification. The items variable of the
source is captured before the clear call but aliases the array that the
clear call mutates in place, so the loop runs over the cleared
children. -/
def destroyV (v : View) : StepRes :=
  match v with
  | View.mk cfg st items =>
    let log0 := [Ev.trig cfg.className "beforedestroy" ""]
    if hookApproves cfg.beforeDestroyRet then
      let log1 := log0 ++ [Ev.observeOff cfg.className]
      match hcl : clearV (View.mk cfg st items) with
      | StepRes.mk v1 cllog clout =>
        match clout with
        | JsOutcome.thrown m => StepRes.mk v1 (log1 ++ cllog) (JsOutcome.thrown m)
        | JsOutcome.norm _ =>
          match hit : v1.itemsOf with
          | Items.jsNull =>
              StepRes.mk v1
                (log1 ++ cllog ++
                 [Ev.undelegate cfg.className, Ev.trig cfg.className "destroy" ""])
                (JsOutcome.norm ())
          | Items.arr l =>
            let loop := destroySlots l
            let v2 := View.mk v1.cfgOf v1.stOf (Items.arr loop.slots)
            match loop.out with
            | JsOutcome.thrown m =>
                StepRes.mk v2 (log1 ++ cllog ++ loop.log) (JsOutcome.thrown m)
            | JsOutcome.norm _ =>
                StepRes.mk v2
                  (log1 ++ cllog ++ loop.log ++
                   [Ev.undelegate cfg.className, Ev.trig cfg.className "destroy" ""])
                  (JsOutcome.norm ())
    else
      StepRes.mk (View.mk cfg st items) log0 (JsOutcome.norm ())
termination_by View.shape v
decreasing_by
  have hx := clearV_items_shape _ _ _ _ _ hcl hit
  simp only [View.shape] at hx ⊢
  omega

/-- Loop body of destroy over the items array: each live child is
destroyed through its own cancellable destroy, then its slot is deleted
(leaving a hole); a hole in the array makes the method call throw; a
thrown child exception aborts the loop before the delete. -/
def destroySlots (l : Slots) : SlotsRes :=
  match l with
  | Slots.nil => SlotsRes.mk Slots.nil [] (JsOutcome.norm ())
  | Slots.cons (Slot.live v) tl =>
    let r := destroyV v
    match r.out with
    | JsOutcome.norm _ =>
        let rest := destroySlots tl
        SlotsRes.mk (Slots.cons Slot.hole rest.slots) (r.log ++ rest.log) rest.out
    | JsOutcome.thrown m =>
        SlotsRes.mk (Slots.cons (Slot.live r.view) tl) r.log (JsOutcome.thrown m)
  | Slots.cons Slot.hole tl =>
    SlotsRes.mk (Slots.cons Slot.hole tl) []
      (JsOutcome.thrown "TypeError: items[i].destroy is not a function")
termination_by Slots.shape l
decreasing_by
  all_goals simp only [Slots.shape, Slot.shape]
  all_goals omega
end

/-- Embedding of the _id allocator (source lines 765 to 768, with the
static counter declared at lines 123 to 128): pre-increments the
process-wide counter shared by all view instances and returns the
fixed prefix joined with the new counter value. -/
def nextViewId (counter : Nat) : String × Nat :=
  ("view-" ++ Nat.repr (counter + 1), counter + 1)

/-- String content of a JavaScript value already validated to be a
string. -/
def jsStr : JSVal → String
  | .str s => s
  | _ => ""

/-- Appending produced markup to the root element, the model of
`this.el.append(...)`; on the reachable render path the element is
never null here (it was checked non-empty and clear keeps it). -/
def elAppend (st : St) (m : Markup) : St :=
  match st.el with
  | some e => { st with el := some { e with content := e.content ++ [m] } }
  | none => st

/-- Number of placeholder tags with the given class below the root
element of the state. -/
def elFindCount (st : St) (cls : String) : Nat :=
  match st.el with
  | some e => e.findCount cls
  | none => 0

/-- Result of render: updated view, updated process-wide identifier
counter, emitted events and the outcome. A normal outcome carries the
dual return contract value (this or false); a thrown outcome is the
fatal structural fault of _renderItems or an uncaught collaborator
exception. -/
structure RendRes where
  view : View
  counter : Nat
  log : List Ev
  out : JsOutcome RRet

/-- Result of the _renderItems loop over the items array. -/
structure RendSlotsRes where
  slots : Slots
  counter : Nat
  log : List Ev
  out : JsOutcome Unit

/-- Successful tail of render: set the rendered flag, run the after
hook and emit the render notification, returning this. -/
def renderFinish (cfg : Cfg) (st3 : St) (items3 : Items) (cnt : Nat) (logPrefix : List Ev) :
    RendRes :=
  RendRes.mk (View.mk cfg { st3 with rendered := true } items3) cnt
    (logPrefix ++ [Ev.trig cfg.className "render" ""]) (JsOutcome.norm RRet.rself)

mutual
/-- Embedding of render (source lines 369 to 417) together with its
inlined helper _renderItems (source lines 646 to 672): validates the
element path, the template name, the resolved element handle and the
template data, clears previous content, appends the markup produced by
the templating collaborator, places and renders the declared children
and finally sets the rendered flag. Returns this both on success and
on hook cancellation and false on every reported error path; a
placeholder deficit for the declared children raises a thrown error. -/
def render (env : Env) (v : View) (cq : JSVal) (counter : Nat) : RendRes :=
  match v with
  | View.mk cfg st items =>
    if ¬ jsTruthy cfg.elPath then
      RendRes.mk (View.mk cfg st items) counter
        [Ev.trig cfg.className "error"
          ("Element css path (elPath) is not set for class \"" ++ cfg.className ++ "\"")]
        (JsOutcome.norm RRet.rfalse)
    else if ¬ (cfg.template = JSVal.jsNull ∨
        (env.tplClass (cfg.templateNs ++ "." ++ jsToString cfg.template)).isSome) then
      RendRes.mk (View.mk cfg st items) counter
        [Ev.trig cfg.className "error" ("Invalid template in view: \"" ++ cfg.className ++ "\"")]
        (JsOutcome.norm RRet.rfalse)
    else
      match updateEl env cfg st cq with
      | UpdRes.mk st1 uplog (some m) =>
          RendRes.mk (View.mk cfg st1 items) counter uplog (JsOutcome.thrown m)
      | UpdRes.mk st1 uplog none =>
        if elMissing st1.el then
          RendRes.mk (View.mk cfg st1 items) counter
            (uplog ++ [Ev.trig cfg.className "error"
              ("Root element (View::el) not found for view \"" ++ cfg.className ++ "\"")])
            (JsOutcome.norm RRet.rfalse)
        else
          let log2 := uplog ++ [Ev.trig cfg.className "beforerender" ""]
          if hookApproves cfg.beforeRenderRet then
            match hcl : clearV (View.mk cfg st1 items) with
            | StepRes.mk v1 cllog clout =>
              match clout with
              | JsOutcome.thrown m => RendRes.mk v1 counter (log2 ++ cllog) (JsOutcome.thrown m)
              | JsOutcome.norm _ =>
                if (v1.stOf.tpl = JSVal.str "" ∨ ¬ isString v1.stOf.tpl) ∨
                    (¬ isObject v1.stOf.templateData ∧ v1.stOf.templateData ≠ JSVal.jsNull) then
                  RendRes.mk v1 counter
                    (log2 ++ cllog ++ [Ev.trig cfg.className "error"
                      ("Invalid template data in view: \"" ++ cfg.className ++ "\"")])
                    (JsOutcome.norm RRet.rfalse)
                else
                  match env.engine (jsStr v1.stOf.tpl) v1.stOf.templateData with
                  | Except.error em =>
                      RendRes.mk v1 counter
                        (log2 ++ cllog ++ [Ev.trig cfg.className "error"
                          ("Template data is invalid in view \"" ++ cfg.className ++
                           "\". Message: \"" ++ em ++ "\"")])
                        (JsOutcome.norm RRet.rfalse)
                  | Except.ok mk =>
                    let st3 := elAppend v1.stOf mk
                    match hit : v1.itemsOf with
                    | Items.jsNull =>
                        renderFinish cfg st3 Items.jsNull counter (log2 ++ cllog)
                    | Items.arr l =>
                      if Slots.length l > 0 then
                        if elFindCount st3 cfg.containerCls < Slots.length l then
                          RendRes.mk (View.mk cfg st3 (Items.arr l)) counter (log2 ++ cllog)
                            (JsOutcome.thrown
                              ("Template of view \"" ++ cfg.className ++
                               "\" doesn\x27t contain enough containers for nested views. Expected " ++
                               Nat.repr (Slots.length l) ++ "."))
                        else
                          match renderSlots env cfg.autoIncrementId cfg.className 0 counter l with
                          | RendSlotsRes.mk l2 cnt2 looplog loopout =>
                            match loopout with
                            | JsOutcome.thrown m =>
                                RendRes.mk (View.mk cfg st3 (Items.arr l2)) cnt2
                                  (log2 ++ cllog ++ looplog) (JsOutcome.thrown m)
                            | JsOutcome.norm _ =>
                                renderFinish cfg st3 (Items.arr l2) cnt2
                                  (log2 ++ cllog ++ looplog)
                      else
                        renderFinish cfg st3 (Items.arr l) counter (log2 ++ cllog)
          else
            RendRes.mk (View.mk cfg st1 items) counter log2 (JsOutcome.norm RRet.rself)
termination_by View.shape v
decreasing_by
  have hx := clearV_items_shape _ _ _ _ _ hcl hit
  simp only [View.shape] at hx ⊢
  omega

/-- Loop body of _renderItems over the items array: an auto child gets
a freshly allocated identifier assigned to the current placeholder tag
and is rendered against that identifier as a selector; other children
render with no container override. The loop ignores the returned value
of each child render, and a thrown child exception aborts it. -/
def renderSlots (env : Env) (autoIdName : String) (parentCls : String) (idx : Nat)
    (counter : Nat) (l : Slots) : RendSlotsRes :=
  match l with
  | Slots.nil => RendSlotsRes.mk Slots.nil counter [] (JsOutcome.norm ())
  | Slots.cons (Slot.live v) tl =>
    let idStep :=
      if v.cfgOf.elPath = JSVal.str autoIdName then
        let p := nextViewId counter
        (some p.fst, p.snd)
      else (none, counter)
    let alog := [Ev.attrId parentCls idx idStep.fst]
    let cq :=
      match idStep.fst with
      | some s => JSVal.str ("#" ++ s)
      | none => JSVal.undef
    match render env v cq idStep.snd with
    | RendRes.mk v2 cnt2 childlog childout =>
      match childout with
      | JsOutcome.thrown m =>
          RendSlotsRes.mk (Slots.cons (Slot.live v2) tl) cnt2 (alog ++ childlog)
            (JsOutcome.thrown m)
      | JsOutcome.norm _ =>
        match renderSlots env autoIdName parentCls (idx + 1) cnt2 tl with
        | RendSlotsRes.mk tl2 cnt3 restlog restout =>
            RendSlotsRes.mk (Slots.cons (Slot.live v2) tl2) cnt3 (alog ++ childlog ++ restlog)
              restout
  | Slots.cons Slot.hole tl =>
    RendSlotsRes.mk (Slots.cons Slot.hole tl) counter []
      (JsOutcome.thrown "TypeError: cannot read a property of undefined")
termination_by Slots.shape l
decreasing_by
  all_goals simp only [Slots.shape, Slot.shape]
  all_goals omega
end

/-- One entry of the declarative items configuration: a bare type name,
an object with a cl type name and optional extra configuration (the
itemId is the part the base class reads), or a malformed value that is
neither a string nor an object. -/
inductive ItemSpec where
  | strSpec (s : String)
  | objSpec (cl : String) (itemId : Option String)
  | badSpec (v : JSVal)
deriving Repr

/-- The raw items configuration value before materialisation: null, a
single string, an array of entries, or some other non-array value. -/
inductive ItemsCfg where
  | cfgNull
  | cfgStr (s : String)
  | cfgArr (l : List ItemSpec)
  | cfgOther (v : JSVal)
deriving Repr

/-- JavaScript property-key coercion of a spec entry, used by the
source when it indexes the view map with the raw entry (an object entry
collapses to the fixed object string). -/
def specKey : ItemSpec → String
  | ItemSpec.strSpec s => s
  | ItemSpec.objSpec _ _ => "[object Object]"
  | ItemSpec.badSpec v => jsToString v

/-- Map insertion with JavaScript object-assignment semantics: a later
assignment to the same key overwrites the earlier one. -/
def mapInsert (m : List (String × View)) (k : String) (v : View) : List (String × View) :=
  m.filter (fun kv => kv.fst ≠ k) ++ [(k, v)]

/-- Truthiness of an optional itemId (an absent value and the empty
string are both falsy in the `if (view.itemId)` test). -/
def itemIdTruthy : Option String → Bool
  | some s => s ≠ ""
  | none => false

/-- Result of _createItems: the instantiated children, the two lookup
indexes, the emitted diagnostics and the outcome; newItems is the value
assigned to this.items at the end (absent when the loop threw or when
the configuration was not an array, in which case this.items keeps its
raw configured value). -/
structure CreateRes where
  instances : List View
  viewMap : List (String × View)
  itemIdMap : List (String × View)
  log : List Ev
  out : JsOutcome Unit
  newItems : Option Items

/-- Loop of _createItems over the spec entries (source lines 737 to
756): a string entry resolves its type name and instantiates it with no
extra configuration; an object entry resolves the cl name and
instantiates it with the entry as configuration; an unresolvable type
name makes the new expression throw; a malformed entry is skipped with
a debug notification. -/
def createLoop (env : Env) (className viewNs : String) :
    List ItemSpec → List View → List (String × View) → List (String × View) → List Ev →
    (List View × List (String × View) × List (String × View) × List Ev × JsOutcome Unit)
  | [], acc, vm, im, log => (acc, vm, im, log, JsOutcome.norm ())
  | ItemSpec.strSpec s :: rest, acc, vm, im, log =>
    (match env.viewCtor (viewNs ++ "." ++ s) with
     | none =>
         (acc, vm, im, log,
          JsOutcome.thrown "TypeError: N13.ns(...) is not a constructor")
     | some ctor =>
         let view := ctor none
         let vm1 := mapInsert vm s view
         let im1 :=
           if itemIdTruthy view.cfgOf.itemId then
             mapInsert im (view.cfgOf.itemId.getD "") view
           else im
         createLoop env className viewNs rest (acc ++ [view]) vm1 im1 log)
  | ItemSpec.objSpec cl iid :: rest, acc, vm, im, log =>
    (match env.viewCtor (viewNs ++ "." ++ cl) with
     | none =>
         (acc, vm, im, log,
          JsOutcome.thrown "TypeError: N13.ns(...) is not a constructor")
     | some ctor =>
         let view := ctor iid
         let vm1 := mapInsert vm (specKey (ItemSpec.objSpec cl iid)) view
         let im1 :=
           if itemIdTruthy view.cfgOf.itemId then
             mapInsert im (view.cfgOf.itemId.getD "") view
           else im
         createLoop env className viewNs rest (acc ++ [view]) vm1 im1 log)
  | ItemSpec.badSpec v :: rest, acc, vm, im, log =>
    createLoop env className viewNs rest acc vm im
      (log ++ [Ev.trig className "debug"
        ("Invalid nested view \"" ++ jsToString v ++ "\" of view \"" ++ className ++
         "\". This view will be skipped.")])

/-- Embedding of _createItems (source lines 720 to 759): a string
configuration is wrapped into a one-entry array; a non-array
configuration is left untouched; otherwise the loop above runs and, on
normal completion, the array of created instances replaces
this.items. -/
def createItems (env : Env) (className viewNs : String) (itemsCfg : ItemsCfg) : CreateRes :=
  let asArr :=
    match itemsCfg with
    | ItemsCfg.cfgStr s => some [ItemSpec.strSpec s]
    | ItemsCfg.cfgArr l => some l
    | ItemsCfg.cfgNull => none
    | ItemsCfg.cfgOther _ => none
  match asArr with
  | none => CreateRes.mk [] [] [] [] (JsOutcome.norm ()) none
  | some specs =>
    match createLoop env className viewNs specs [] [] [] [] with
    | (acc, vm, im, log, JsOutcome.norm _) =>
        CreateRes.mk acc vm im log (JsOutcome.norm ())
          (some (Items.arr (Slots.ofViews acc)))
    | (acc, vm, im, log, JsOutcome.thrown m) =>
        CreateRes.mk acc vm im log (JsOutcome.thrown m) none

/-! Derived predicates and helper functions used to state the
properties below. -/

mutual
/-- True when no slot anywhere in the tree is a hole (the state of
every tree before its first destroy). -/
def noHolesV : View → Bool
  | View.mk _ _ items => noHolesI items

def noHolesI : Items → Bool
  | Items.jsNull => true
  | Items.arr l => noHolesS l

def noHolesS : Slots → Bool
  | Slots.nil => true
  | Slots.cons (Slot.live v) tl => noHolesV v && noHolesS tl
  | Slots.cons Slot.hole _ => false
end

mutual
/-- True when the destroy hook of every view in the tree approves. -/
def dApprovesV : View → Bool
  | View.mk cfg _ items => hookApproves cfg.beforeDestroyRet && dApprovesI items

def dApprovesI : Items → Bool
  | Items.jsNull => true
  | Items.arr l => dApprovesS l

def dApprovesS : Slots → Bool
  | Slots.nil => true
  | Slots.cons (Slot.live v) tl => dApprovesV v && dApprovesS tl
  | Slots.cons Slot.hole tl => dApprovesS tl
end

mutual
/-- True when every rendered view of the tree has a non-null element
handle (established by any successful render; show and hide dereference
the handle of each rendered view). -/
def elOkV : View → Bool
  | View.mk _ st items => (!st.rendered || st.el.isSome) && elOkI items

def elOkI : Items → Bool
  | Items.jsNull => true
  | Items.arr l => elOkS l

def elOkS : Slots → Bool
  | Slots.nil => true
  | Slots.cons (Slot.live v) tl => elOkV v && elOkS tl
  | Slots.cons Slot.hole tl => elOkS tl
end

/-- The destroy completion notifications of the live children of a slot
array, in declaration order. -/
def destroyEvsS : Slots → List Ev
  | Slots.nil => []
  | Slots.cons (Slot.live v) tl => Ev.trig v.cfgOf.className "destroy" "" :: destroyEvsS tl
  | Slots.cons Slot.hole tl => destroyEvsS tl

/-- The destroy completion notifications of the live children of an
items value, in declaration order. -/
def destroyEvsI : Items → List Ev
  | Items.jsNull => []
  | Items.arr l => destroyEvsS l

/-- True when a spec entry cannot abort child materialisation: a string
or object entry whose type name resolves, or a malformed entry (which
is merely skipped). -/
def specOk (env : Env) (viewNs : String) : ItemSpec → Bool
  | ItemSpec.strSpec s => (env.viewCtor (viewNs ++ "." ++ s)).isSome
  | ItemSpec.objSpec cl _ => (env.viewCtor (viewNs ++ "." ++ cl)).isSome
  | ItemSpec.badSpec _ => true

/-- The views that materialisation creates for a spec list, in order:
one instance per resolvable entry, none for malformed entries. -/
def specViews (env : Env) (viewNs : String) : List ItemSpec → List View
  | [] => []
  | ItemSpec.strSpec s :: rest =>
      (match env.viewCtor (viewNs ++ "." ++ s) with
       | some ctor => [ctor none]
       | none => []) ++ specViews env viewNs rest
  | ItemSpec.objSpec cl iid :: rest =>
      (match env.viewCtor (viewNs ++ "." ++ cl) with
       | some ctor => [ctor iid]
       | none => []) ++ specViews env viewNs rest
  | ItemSpec.badSpec _ :: rest => specViews env viewNs rest

/-- The debug notifications emitted for the malformed entries of a spec
list, in order. -/
def specDebugEvs (className : String) : List ItemSpec → List Ev
  | [] => []
  | ItemSpec.badSpec v :: rest =>
      Ev.trig className "debug"
        ("Invalid nested view \"" ++ jsToString v ++ "\" of view \"" ++ className ++
         "\". This view will be skipped.") :: specDebugEvs className rest
  | _ :: rest => specDebugEvs className rest

/-- True for a freshly constructed leaf view: no declared children and
an element handle that is still null (it will be resolved during
render). -/
def freshLeafV : View → Bool
  | View.mk _ st Items.jsNull => st.el.isNone
  | _ => false

/-- True when every slot holds a freshly constructed leaf child. -/
def freshLeaves : Slots → Bool
  | Slots.nil => true
  | Slots.cons (Slot.live v) tl => freshLeafV v && freshLeaves tl
  | Slots.cons Slot.hole _ => false

/-- Length of an items value (zero for null). -/
def itemsLength : Items → Nat
  | Items.jsNull => 0
  | Items.arr l => Slots.length l

/-- True when the items value is still null. -/
def itemsIsNull : Items → Bool
  | Items.jsNull => true
  | Items.arr _ => false

/-- True when every slot of an items array is a hole (vacuously true
for null). -/
def itemsAllHoles : Items → Bool
  | Items.jsNull => true
  | Items.arr l => Slots.allHoles l

/-- The destroy contract of one view: normal completion; the log ends
with the own undelegate step followed by the own destroy notification;
the destroy notifications of the children, in declaration order,
followed by the own undelegate step, embed in order into the log; and
the items value afterwards has the same null-ness and length as before
but every slot is a hole. -/
def DestroySpec (v : View) : Prop :=
  (destroyV v).out = JsOutcome.norm () ∧
  (∃ pre, (destroyV v).log =
    pre ++ [Ev.undelegate v.cfgOf.className, Ev.trig v.cfgOf.className "destroy" ""]) ∧
  (destroyEvsI v.itemsOf ++ [Ev.undelegate v.cfgOf.className]).Sublist (destroyV v).log ∧
  itemsLength (destroyV v).view.itemsOf = itemsLength v.itemsOf ∧
  itemsAllHoles (destroyV v).view.itemsOf = true ∧
  itemsIsNull (destroyV v).view.itemsOf = itemsIsNull v.itemsOf

/-! Decimal printing infrastructure: a recursive reformulation of the
core printer together with a decoder, used to prove that the identifier
allocator never produces the same string twice. -/

/-- Decimal digit list of a natural number, most significant first,
as a structurally transparent recursion. -/
def digitsRec (n : Nat) : List Char :=
  if n < 10 then [Nat.digitChar n]
  else digitsRec (n / 10) ++ [Nat.digitChar (n % 10)]
decreasing_by
  have h10 : (1 : Nat) < 10 := by omega
  exact Nat.div_lt_self (by omega) h10

/-- Decimal decoder, the left inverse of the digit printer. -/
def decodeNat (l : List Char) : Nat :=
  l.foldl (fun a c => 10 * a + (c.toNat - 48)) 0

/-! Sample collaborators and configurations used by the concrete
counterexamples and witnesses below. -/

/-- Sample resolved element handle with one match. -/
def demoEl : El := { len := 1, display := "block", content := [] }

/-- Sample base configuration: the default configs block of the source
with a concrete root selector and a class name. -/
def demoCfg : Cfg :=
  { className := "App.view.Demo", elPath := JSVal.str "#root", autoIncrementId := "auto",
    containerCls := "innerContainer", template := JSVal.jsNull, templateNs := "App.template",
    templateDataProp := "data", viewNs := "App.view", itemId := none,
    beforeRenderRet := JSVal.undef, beforeClearRet := JSVal.undef, beforeShowRet := JSVal.undef,
    beforeHideRet := JSVal.undef, beforeDisableRet := JSVal.undef, beforeEnableRet := JSVal.undef,
    beforeDestroyRet := JSVal.undef }

/-- Sample environment: the root selector and the first two allocated
identifiers resolve to a unique element, one template class named main
exists whose template string TPL renders to a markup chunk with two
placeholder slots, and one view class named Good is registered. -/
def demoEnv : Env :=
  { query := fun q =>
      match q with
      | JSVal.str s =>
          if s = "#root" || s = "#view-1" || s = "#view-2" then Except.ok demoEl
          else Except.ok { len := 0, display := "", content := [] }
      | _ => Except.ok { len := 0, display := "", content := [] }
    tplClass := fun n =>
      if n = "App.template.main" then some { props := [("data", JSVal.str "TPL")] }
      else if n = "App.template.one" then some { props := [("data", JSVal.str "ONE")] }
      else none
    engine := fun t _ =>
      if t = "TPL" then
        Except.ok { html := "<div/>", slots := ["innerContainer", "innerContainer"] }
      else if t = "ONE" then
        Except.ok { html := "<div/>", slots := ["innerContainer"] }
      else Except.error "engine fault"
    viewCtor := fun n =>
      if n = "App.view.Good" then
        some (fun iid =>
          View.mk
            { demoCfg with
                className := "App.view.Good"
                elPath := JSVal.str "auto"
                itemId := iid }
            initialSt Items.jsNull)
      else none }

/-- Sample environment in which the root selector matches two DOM
nodes (duplicate anchors); templates and the engine behave as in the
base sample environment. -/
def demoEnvDup : Env :=
  { demoEnv with
      query := fun q =>
        match q with
        | JSVal.str s =>
            if s = "#root" then Except.ok { len := 2, display := "block", content := [] }
            else Except.ok { len := 0, display := "", content := [] }
        | _ => Except.ok { len := 0, display := "", content := [] } }

/-- Sample configuration whose template name resolves in the sample
environment. -/
def demoCfgMain : Cfg := { demoCfg with template := JSVal.str "main" }

/-- Sample state of a previously rendered leaf view whose data mapping
was later set to a number (neither a mapping nor null). -/
def demoStRendered : St :=
  { constructedSt demoEnv demoCfgMain with
      rendered := true
      el := some demoEl
      templateData := JSVal.num 5 }

/-- Sample freshly constructed auto-positioned leaf child (the shape
produced by the registered Good view class). -/
def demoChild : View :=
  View.mk { demoCfg with className := "App.view.Good", elPath := JSVal.str "auto" }
    initialSt Items.jsNull

/-- Sample configuration whose template has a single placeholder
slot. -/
def demoCfgOne : Cfg := { demoCfg with template := JSVal.str "one" }

/-- Two auto-positioned leaf children. -/
def demoSlots2 : Slots := Slots.ofViews [demoChild, demoChild]

/-- State of the one-slot parent after element resolution. -/
def demoStA1 : St := { constructedSt demoEnv demoCfgOne with el := some demoEl }

/-- State of the two-slot parent after element resolution. -/
def demoStB1 : St := { constructedSt demoEnv demoCfgMain with el := some demoEl }

/-- Markup with one placeholder slot. -/
def oneMarkup : Markup := { html := "<div/>", slots := ["innerContainer"] }

/-- Markup with two placeholder slots. -/
def twoMarkup : Markup := { html := "<div/>", slots := ["innerContainer", "innerContainer"] }

/-- State of a rendered leaf displayed with a grid layout. -/
def demoStGrid : St :=
  { initialSt with
      rendered := true
      el := some { len := 1, display := "grid", content := [] } }

/-! Theorems. -/

theorem updateEl_rendered (env : Env) (cfg : Cfg) (st : St) (cq : JSVal) :
    (updateEl env cfg st cq).st.rendered = st.rendered := by
  unfold updateEl
  rcases hq1 : env.query cq with e | m <;>
    rcases hq2 : env.query
        (if cfg.elPath = JSVal.str cfg.autoIncrementId then JSVal.jsNull else cfg.elPath)
      with e2 | m2 <;>
    simp only [hq1, hq2] <;> repeat' split <;> simp_all

theorem updateEl_resolved_noop (env : Env) (cfg : Cfg) (st : St) (cq : JSVal) (e : El)
    (h0 : st.el = some e) (hlen : e.len ≠ 0) (hcq : isString cq = false) :
    updateEl env cfg st cq = UpdRes.mk st [] none := by
  unfold updateEl
  simp [h0, hcq, elMissing, hlen]

theorem updateEl_duplicate (env : Env) (cfg : Cfg) (st : St) (cq : JSVal) (e2 : El)
    (h0 : st.el = none) (hcq : isString cq = false) (hinit : st.initEvents = false)
    (hq : env.query
        (if cfg.elPath = JSVal.str cfg.autoIncrementId then JSVal.jsNull else cfg.elPath) =
      Except.ok e2)
    (hlen : e2.len > 1) :
    updateEl env cfg st cq =
      UpdRes.mk { st with el := some e2 }
        [Ev.trig cfg.className "error"
          ("Found duplicate ids for view \"" ++ cfg.className ++ "\"")]
        none := by
  have hne : e2.len ≠ 0 := by omega
  unfold updateEl
  simp [h0, hcq, hq, elMissing, elLen, hlen, hinit, hne]

theorem toDigitsCore_acc (fuel : Nat) : ∀ (n : Nat) (ds : List Char),
    Nat.toDigitsCore 10 fuel n ds = Nat.toDigitsCore 10 fuel n [] ++ ds := by
  induction fuel with
  | zero => intro n ds; simp [Nat.toDigitsCore]
  | succ f ih =>
    intro n ds
    simp only [Nat.toDigitsCore]
    by_cases h : n / 10 = 0
    · simp [h]
    · simp only [h, if_false]
      rw [ih (n / 10) (Nat.digitChar (n % 10) :: ds), ih (n / 10) [Nat.digitChar (n % 10)]]
      simp

theorem toDigitsCore_eq_digitsRec (fuel : Nat) : ∀ n : Nat, n < fuel →
    Nat.toDigitsCore 10 fuel n [] = digitsRec n := by
  induction fuel with
  | zero => intro n h; omega
  | succ f ih =>
    intro n h
    simp only [Nat.toDigitsCore]
    by_cases h0 : n / 10 = 0
    · have hn : n < 10 := by omega
      rw [digitsRec]
      simp [h0, hn, Nat.mod_eq_of_lt hn]
    · have hn : ¬ n < 10 := by omega
      have hdiv : n / 10 < n := Nat.div_lt_self (by omega) (by omega)
      simp only [h0, if_false]
      rw [toDigitsCore_acc, ih (n / 10) (by omega)]
      conv_rhs => rw [digitsRec]
      simp [hn]

theorem digitChar_decode (m : Nat) (h : m < 10) : (Nat.digitChar m).toNat - 48 = m := by
  interval_cases m <;> decide

theorem decode_digitsRec (n : Nat) : decodeNat (digitsRec n) = n := by
  induction n using Nat.strong_induction_on with
  | _ n ih =>
    by_cases h : n < 10
    · rw [digitsRec]
      simp [h, decodeNat, digitChar_decode n h]
    · have hdiv : n / 10 < n := Nat.div_lt_self (by omega) (by omega)
      have ih1 := ih (n / 10) hdiv
      rw [digitsRec]
      simp only [h, if_false]
      unfold decodeNat
      rw [List.foldl_append]
      unfold decodeNat at ih1
      rw [ih1]
      simp only [List.foldl_cons, List.foldl_nil]
      rw [digitChar_decode (n % 10) (Nat.mod_lt n (by omega))]
      omega

theorem digitsRec_injective (m n : Nat) (h : digitsRec m = digitsRec n) : m = n := by
  have hm := decode_digitsRec m
  have hn := decode_digitsRec n
  rw [h] at hm
  omega

theorem reprNat_injective (m n : Nat) (h : Nat.repr m = Nat.repr n) : m = n := by
  have hl : Nat.toDigits 10 m = Nat.toDigits 10 n := congrArg String.data h
  unfold Nat.toDigits at hl
  rw [toDigitsCore_eq_digitsRec (m + 1) m (by omega)] at hl
  rw [toDigitsCore_eq_digitsRec (n + 1) n (by omega)] at hl
  exact digitsRec_injective m n hl

/-- CLAIM C9: the identifier allocator is a single process-wide
monotonically increasing counter shared by all view instances; every
call returns the fixed prefix plus the counter value, two calls at
distinct counter states return distinct identifier strings, and an
identifier is never reused (the counter never decreases, and destroy
never touches it). -/
theorem c9_id_allocator (c c1 c2 : Nat) (h : c1 ≠ c2) :
    (nextViewId c).fst = "view-" ++ Nat.repr (c + 1) ∧
    (nextViewId c).snd = c + 1 ∧
    (nextViewId c1).fst ≠ (nextViewId c2).fst := by
  refine ⟨rfl, rfl, ?_⟩
  intro heq
  simp only [nextViewId] at heq
  have hd := congrArg String.data heq
  rw [String.data_append, String.data_append] at hd
  have hrepr : Nat.repr (c1 + 1) = Nat.repr (c2 + 1) :=
    String.ext (List.append_cancel_left hd)
  have := reprNat_injective (c1 + 1) (c2 + 1) hrepr
  omega

/-- Witness for C9 at counters 0 and 1. -/
theorem c9_id_allocator_witness :
    (0 : Nat) ≠ 1 ∧
    ((nextViewId 0).fst = "view-" ++ Nat.repr 1 ∧
     (nextViewId 0).snd = 1 ∧
     (nextViewId 0).fst ≠ (nextViewId 1).fst) :=
  ⟨by decide, c9_id_allocator 0 0 1 (by decide)⟩

/-- CLAIM C10: on a node whose items configuration stayed null (never
materialised into an array), the numeric branch of getItem indexes into
null and throws instead of returning null; once items is an array, the
child-at-position-or-null contract holds, including holes, negative and
out-of-range positions. -/
theorem c10_getItem_numeric (im vm : List (String × View)) (n : Int) (l : Slots) :
    getItem im vm Items.jsNull (JSVal.num n) =
      JsOutcome.thrown "TypeError: cannot read a property of null" ∧
    getItem im vm (Items.arr l) (JSVal.num n) = JsOutcome.norm (slotGet l n) :=
  ⟨rfl, rfl⟩

/-- CLAIM C8 counterexample: an unresolvable type name is not skipped;
the constructor call on the unresolved namespace value throws, so the
well-formed resolvable sibling Good is never materialised. -/
theorem c8_unresolvable_aborts_cex :
    specOk demoEnv "App.view" (ItemSpec.strSpec "Missing") = false ∧
    specOk demoEnv "App.view" (ItemSpec.strSpec "Good") = true ∧
    (createItems demoEnv "App.view.Parent" "App.view"
        (ItemsCfg.cfgArr [ItemSpec.strSpec "Missing", ItemSpec.strSpec "Good"])).out =
      JsOutcome.thrown "TypeError: N13.ns(...) is not a constructor" ∧
    (createItems demoEnv "App.view.Parent" "App.view"
        (ItemsCfg.cfgArr [ItemSpec.strSpec "Missing", ItemSpec.strSpec "Good"])).instances =
      [] := by
  refine ⟨by decide, by decide, rfl, rfl⟩

theorem createLoop_all_ok (env : Env) (cls ns : String) :
    ∀ (specs : List ItemSpec) (acc : List View) (vm im : List (String × View)) (log : List Ev),
    (∀ sp ∈ specs, specOk env ns sp = true) →
    ∃ vm1 im1,
      createLoop env cls ns specs acc vm im log =
        (acc ++ specViews env ns specs, vm1, im1, log ++ specDebugEvs cls specs,
         JsOutcome.norm ()) := by
  intro specs
  induction specs with
  | nil => intro acc vm im log _; exact ⟨vm, im, by simp [createLoop, specViews, specDebugEvs]⟩
  | cons sp rest ih =>
    intro acc vm im log hok
    have hsp := hok sp (List.mem_cons_self sp rest)
    have hrest : ∀ x ∈ rest, specOk env ns x = true :=
      fun x hx => hok x (List.mem_cons_of_mem sp hx)
    cases sp with
    | strSpec s =>
      simp only [specOk, Option.isSome_iff_exists] at hsp
      obtain ⟨ctor, hctor⟩ := hsp
      obtain ⟨vm1, im1, hrec⟩ := ih (acc ++ [ctor none])
        (mapInsert vm s (ctor none))
        (if itemIdTruthy (ctor none).cfgOf.itemId then
           mapInsert im ((ctor none).cfgOf.itemId.getD "") (ctor none)
         else im) log hrest
      refine ⟨vm1, im1, ?_⟩
      simp only [createLoop, hctor]
      rw [hrec]
      simp [specViews, specDebugEvs, hctor]
    | objSpec cl iid =>
      simp only [specOk, Option.isSome_iff_exists] at hsp
      obtain ⟨ctor, hctor⟩ := hsp
      obtain ⟨vm1, im1, hrec⟩ := ih (acc ++ [ctor iid])
        (mapInsert vm (specKey (ItemSpec.objSpec cl iid)) (ctor iid))
        (if itemIdTruthy (ctor iid).cfgOf.itemId then
           mapInsert im ((ctor iid).cfgOf.itemId.getD "") (ctor iid)
         else im) log hrest
      refine ⟨vm1, im1, ?_⟩
      simp only [createLoop, hctor]
      rw [hrec]
      simp [specViews, specDebugEvs, hctor]
    | badSpec v =>
      obtain ⟨vm1, im1, hrec⟩ := ih acc vm im
        (log ++ [Ev.trig cls "debug"
          ("Invalid nested view \"" ++ jsToString v ++ "\" of view \"" ++ cls ++
           "\". This view will be skipped.")]) hrest
      refine ⟨vm1, im1, ?_⟩
      simp only [createLoop]
      rw [hrec]
      simp [specViews, specDebugEvs]

theorem createLoop_abort (env : Env) (cls ns : String) :
    ∀ (pre : List ItemSpec) (sp : ItemSpec) (rest : List ItemSpec)
      (acc : List View) (vm im : List (String × View)) (log : List Ev),
    (∀ x ∈ pre, specOk env ns x = true) → specOk env ns sp = false →
    ∃ vm1 im1,
      createLoop env cls ns (pre ++ sp :: rest) acc vm im log =
        (acc ++ specViews env ns pre, vm1, im1, log ++ specDebugEvs cls pre,
         JsOutcome.thrown "TypeError: N13.ns(...) is not a constructor") := by
  intro pre
  induction pre with
  | nil =>
    intro sp rest acc vm im log _ hbad
    cases sp with
    | strSpec s =>
      simp only [specOk, Option.isSome_iff_exists] at hbad
      have hnone : env.viewCtor (ns ++ "." ++ s) = none := by
        cases hc : env.viewCtor (ns ++ "." ++ s) with
        | none => rfl
        | some c => rw [hc] at hbad; simp at hbad
      exact ⟨vm, im, by simp [createLoop, hnone, specViews, specDebugEvs]⟩
    | objSpec cl iid =>
      simp only [specOk, Option.isSome_iff_exists] at hbad
      have hnone : env.viewCtor (ns ++ "." ++ cl) = none := by
        cases hc : env.viewCtor (ns ++ "." ++ cl) with
        | none => rfl
        | some c => rw [hc] at hbad; simp at hbad
      exact ⟨vm, im, by simp [createLoop, hnone, specViews, specDebugEvs]⟩
    | badSpec v => simp [specOk] at hbad
  | cons hd tl ih =>
    intro sp rest acc vm im log hok hbad
    have hhd := hok hd (List.mem_cons_self hd tl)
    have htl : ∀ x ∈ tl, specOk env ns x = true :=
      fun x hx => hok x (List.mem_cons_of_mem hd hx)
    cases hd with
    | strSpec s =>
      simp only [specOk, Option.isSome_iff_exists] at hhd
      obtain ⟨ctor, hctor⟩ := hhd
      obtain ⟨vm1, im1, hrec⟩ := ih sp rest (acc ++ [ctor none])
        (mapInsert vm s (ctor none))
        (if itemIdTruthy (ctor none).cfgOf.itemId then
           mapInsert im ((ctor none).cfgOf.itemId.getD "") (ctor none)
         else im) log htl hbad
      refine ⟨vm1, im1, ?_⟩
      simp only [List.cons_append, createLoop, hctor, List.append_eq]
      rw [hrec]
      simp [specViews, specDebugEvs, hctor]
    | objSpec cl iid =>
      simp only [specOk, Option.isSome_iff_exists] at hhd
      obtain ⟨ctor, hctor⟩ := hhd
      obtain ⟨vm1, im1, hrec⟩ := ih sp rest (acc ++ [ctor iid])
        (mapInsert vm (specKey (ItemSpec.objSpec cl iid)) (ctor iid))
        (if itemIdTruthy (ctor iid).cfgOf.itemId then
           mapInsert im ((ctor iid).cfgOf.itemId.getD "") (ctor iid)
         else im) log htl hbad
      refine ⟨vm1, im1, ?_⟩
      simp only [List.cons_append, createLoop, hctor, List.append_eq]
      rw [hrec]
      simp [specViews, specDebugEvs, hctor]
    | badSpec v =>
      obtain ⟨vm1, im1, hrec⟩ := ih sp rest acc vm im
        (log ++ [Ev.trig cls "debug"
          ("Invalid nested view \"" ++ jsToString v ++ "\" of view \"" ++ cls ++
           "\". This view will be skipped.")]) htl hbad
      refine ⟨vm1, im1, ?_⟩
      simp only [List.cons_append, createLoop, List.append_eq]
      rw [hrec]
      simp [specViews, specDebugEvs]

/-- CLAIM C8 (amended): malformed entries (neither string nor object)
are skipped with a diagnostic debug notification and every resolvable
sibling is still instantiated, in order; however an entry whose type
name does not resolve makes the constructor call throw, aborting the
whole materialisation: the entries before it are instantiated, the
entries after it are not, and this.items is never replaced. -/
theorem c8_createItems_amended (env : Env) (cls ns : String) (specs : List ItemSpec)
    (pre : List ItemSpec) (sp : ItemSpec) (rest : List ItemSpec)
    (hok : ∀ x ∈ specs, specOk env ns x = true)
    (hpre : ∀ x ∈ pre, specOk env ns x = true) (hbad : specOk env ns sp = false) :
    (∃ vm1 im1,
      createItems env cls ns (ItemsCfg.cfgArr specs) =
        CreateRes.mk (specViews env ns specs) vm1 im1 (specDebugEvs cls specs)
          (JsOutcome.norm ()) (some (Items.arr (Slots.ofViews (specViews env ns specs))))) ∧
    (∃ vm1 im1,
      createItems env cls ns (ItemsCfg.cfgArr (pre ++ sp :: rest)) =
        CreateRes.mk (specViews env ns pre) vm1 im1 (specDebugEvs cls pre)
          (JsOutcome.thrown "TypeError: N13.ns(...) is not a constructor") none) := by
  constructor
  · obtain ⟨vm1, im1, h⟩ := createLoop_all_ok env cls ns specs [] [] [] [] hok
    exact ⟨vm1, im1, by simp [createItems, h]⟩
  · obtain ⟨vm1, im1, h⟩ := createLoop_abort env cls ns pre sp rest [] [] [] [] hpre hbad
    exact ⟨vm1, im1, by simp [createItems, h]⟩

/-- Witness for C8 (amended) on a list with one resolvable entry and
one malformed entry, and an abort split with an unresolvable head. -/
theorem c8_createItems_amended_witness :
    (∀ x ∈ [ItemSpec.strSpec "Good", ItemSpec.badSpec (JSVal.num 5)],
       specOk demoEnv "App.view" x = true) ∧
    (∀ x ∈ ([] : List ItemSpec), specOk demoEnv "App.view" x = true) ∧
    specOk demoEnv "App.view" (ItemSpec.strSpec "Missing") = false ∧
    ((∃ vm1 im1,
      createItems demoEnv "App.view.Parent" "App.view"
          (ItemsCfg.cfgArr [ItemSpec.strSpec "Good", ItemSpec.badSpec (JSVal.num 5)]) =
        CreateRes.mk
          (specViews demoEnv "App.view" [ItemSpec.strSpec "Good", ItemSpec.badSpec (JSVal.num 5)])
          vm1 im1
          (specDebugEvs "App.view.Parent" [ItemSpec.strSpec "Good", ItemSpec.badSpec (JSVal.num 5)])
          (JsOutcome.norm ())
          (some (Items.arr (Slots.ofViews
            (specViews demoEnv "App.view" [ItemSpec.strSpec "Good", ItemSpec.badSpec (JSVal.num 5)]))))) ∧
     (∃ vm1 im1,
      createItems demoEnv "App.view.Parent" "App.view"
          (ItemsCfg.cfgArr ([] ++ ItemSpec.strSpec "Missing" :: [ItemSpec.strSpec "Good"])) =
        CreateRes.mk (specViews demoEnv "App.view" []) vm1 im1
          (specDebugEvs "App.view.Parent" [])
          (JsOutcome.thrown "TypeError: N13.ns(...) is not a constructor") none)) := by
  refine ⟨?_, ?_, ?_, ?_⟩
  · intro x hx
    simp only [List.mem_cons, List.not_mem_nil, or_false] at hx
    rcases hx with h | h <;> subst h <;> decide
  · intro x hx
    simp at hx
  · decide
  · exact c8_createItems_amended demoEnv "App.view.Parent" "App.view"
      [ItemSpec.strSpec "Good", ItemSpec.badSpec (JSVal.num 5)]
      [] (ItemSpec.strSpec "Missing") [ItemSpec.strSpec "Good"]
      (by intro x hx
          simp only [List.mem_cons, List.not_mem_nil, or_false] at hx
          rcases hx with h | h <;> subst h <;> decide)
      (by intro x hx; simp at hx)
      (by decide)

/-- CLAIM C1 (code bug evidence): a node with a null template, no
declared children and the unique concrete anchor root is REJECTED by
render, although the configuration documents null as the valid
no-markup configuration and the render-time template check itself
admits it: the private template string stays empty, so the
invalid-template-data validation fires, an error notification is
emitted, false is returned and rendered stays false. -/
theorem c1_null_template_render_rejected :
    demoCfg.template = JSVal.jsNull ∧
    (constructedSt demoEnv demoCfg).tpl = JSVal.str "" ∧
    (render demoEnv (View.mk demoCfg (constructedSt demoEnv demoCfg) Items.jsNull)
        JSVal.undef 0).out = JsOutcome.norm RRet.rfalse ∧
    (render demoEnv (View.mk demoCfg (constructedSt demoEnv demoCfg) Items.jsNull)
        JSVal.undef 0).view.stOf.rendered = false ∧
    (render demoEnv (View.mk demoCfg (constructedSt demoEnv demoCfg) Items.jsNull)
        JSVal.undef 0).log =
      [Ev.trig "App.view.Demo" "beforerender" "",
       Ev.trig "App.view.Demo" "error" "Invalid template data in view: \"App.view.Demo\""] := by
  refine ⟨by decide, by decide, ?_, ?_, ?_⟩ <;> (unfold render; decide)

/-- CLAIM C2 counterexample: when onBeforeRender returns false (a
non-approving value), render does not return false; it falls through to
the final return statement and hands back the node itself, so the
claimed contract fails on the cancellation path. -/
theorem c2_cancel_returns_self_cex :
    hookApproves (JSVal.bool false) = false ∧
    (render demoEnv
        (View.mk { demoCfg with beforeRenderRet := JSVal.bool false }
          (constructedSt demoEnv demoCfg) Items.jsNull)
        JSVal.undef 0).out = JsOutcome.norm RRet.rself := by
  refine ⟨by decide, ?_⟩
  unfold render
  decide

/-! Path lemmas for render, used by several claims below. Each lemma
pins down the complete result of render on one control-flow path of the
source, under hypotheses naming the conditions that select the path. -/

theorem render_elPath_unset (env : Env) (cfg : Cfg) (st : St) (items : Items) (cq : JSVal)
    (cnt : Nat) (h : jsTruthy cfg.elPath = false) :
    render env (View.mk cfg st items) cq cnt =
      RendRes.mk (View.mk cfg st items) cnt
        [Ev.trig cfg.className "error"
          ("Element css path (elPath) is not set for class \"" ++ cfg.className ++ "\"")]
        (JsOutcome.norm RRet.rfalse) := by
  unfold render
  simp [h]

theorem render_template_unresolved (env : Env) (cfg : Cfg) (st : St) (items : Items)
    (cq : JSVal) (cnt : Nat) (h1 : jsTruthy cfg.elPath = true)
    (h2 : ¬ (cfg.template = JSVal.jsNull ∨
      (env.tplClass (cfg.templateNs ++ "." ++ jsToString cfg.template)).isSome = true)) :
    render env (View.mk cfg st items) cq cnt =
      RendRes.mk (View.mk cfg st items) cnt
        [Ev.trig cfg.className "error" ("Invalid template in view: \"" ++ cfg.className ++ "\"")]
        (JsOutcome.norm RRet.rfalse) := by
  unfold render
  simp [h1, h2]

theorem render_el_not_found (env : Env) (cfg : Cfg) (st : St) (items : Items) (cq : JSVal)
    (cnt : Nat) (st1 : St) (uplog : List Ev)
    (h1 : jsTruthy cfg.elPath = true)
    (h2 : cfg.template = JSVal.jsNull ∨
      (env.tplClass (cfg.templateNs ++ "." ++ jsToString cfg.template)).isSome = true)
    (hupd : updateEl env cfg st cq = UpdRes.mk st1 uplog none)
    (hel : elMissing st1.el = true) :
    render env (View.mk cfg st items) cq cnt =
      RendRes.mk (View.mk cfg st1 items) cnt
        (uplog ++ [Ev.trig cfg.className "error"
          ("Root element (View::el) not found for view \"" ++ cfg.className ++ "\"")])
        (JsOutcome.norm RRet.rfalse) := by
  unfold render
  simp [h1, h2, hupd, hel]

theorem render_cancelled (env : Env) (cfg : Cfg) (st : St) (items : Items) (cq : JSVal)
    (cnt : Nat) (st1 : St) (uplog : List Ev)
    (h1 : jsTruthy cfg.elPath = true)
    (h2 : cfg.template = JSVal.jsNull ∨
      (env.tplClass (cfg.templateNs ++ "." ++ jsToString cfg.template)).isSome = true)
    (hupd : updateEl env cfg st cq = UpdRes.mk st1 uplog none)
    (hel : elMissing st1.el = false)
    (hap : hookApproves cfg.beforeRenderRet = false) :
    render env (View.mk cfg st items) cq cnt =
      RendRes.mk (View.mk cfg st1 items) cnt
        (uplog ++ [Ev.trig cfg.className "beforerender" ""]) (JsOutcome.norm RRet.rself) := by
  unfold render
  simp [h1, h2, hupd, hel, hap]

theorem render_data_invalid (env : Env) (cfg : Cfg) (st : St) (items : Items) (cq : JSVal)
    (cnt : Nat) (st1 : St) (uplog : List Ev) (s2 : St) (items2 : Items) (cllog : List Ev)
    (h1 : jsTruthy cfg.elPath = true)
    (h2 : cfg.template = JSVal.jsNull ∨
      (env.tplClass (cfg.templateNs ++ "." ++ jsToString cfg.template)).isSome = true)
    (hupd : updateEl env cfg st cq = UpdRes.mk st1 uplog none)
    (hel : elMissing st1.el = false)
    (hap : hookApproves cfg.beforeRenderRet = true)
    (hclear : clearV (View.mk cfg st1 items) =
      StepRes.mk (View.mk cfg s2 items2) cllog (JsOutcome.norm ()))
    (hdata : (s2.tpl = JSVal.str "" ∨ ¬ isString s2.tpl = true) ∨
      (¬ isObject s2.templateData = true ∧ s2.templateData ≠ JSVal.jsNull)) :
    render env (View.mk cfg st items) cq cnt =
      RendRes.mk (View.mk cfg s2 items2) cnt
        (uplog ++ [Ev.trig cfg.className "beforerender" ""] ++ cllog ++
         [Ev.trig cfg.className "error"
           ("Invalid template data in view: \"" ++ cfg.className ++ "\"")])
        (JsOutcome.norm RRet.rfalse) := by
  unfold render
  simp [h1, h2, hupd, hel, hap, hclear, View.stOf, hdata]
  split
  · rename_i a hcl
    rw [hclear] at a
    simp at a
  · rename_i a hcl
    split
    · rfl
    · rename_i hcond
      exfalso
      apply hcond
      simpa using hdata

theorem render_engine_fault (env : Env) (cfg : Cfg) (st : St) (items : Items) (cq : JSVal)
    (cnt : Nat) (st1 : St) (uplog : List Ev) (s2 : St) (items2 : Items) (cllog : List Ev)
    (em : String)
    (h1 : jsTruthy cfg.elPath = true)
    (h2 : cfg.template = JSVal.jsNull ∨
      (env.tplClass (cfg.templateNs ++ "." ++ jsToString cfg.template)).isSome = true)
    (hupd : updateEl env cfg st cq = UpdRes.mk st1 uplog none)
    (hel : elMissing st1.el = false)
    (hap : hookApproves cfg.beforeRenderRet = true)
    (hclear : clearV (View.mk cfg st1 items) =
      StepRes.mk (View.mk cfg s2 items2) cllog (JsOutcome.norm ()))
    (hdata : ¬ ((s2.tpl = JSVal.str "" ∨ ¬ isString s2.tpl = true) ∨
      (¬ isObject s2.templateData = true ∧ s2.templateData ≠ JSVal.jsNull)))
    (heng : env.engine (jsStr s2.tpl) s2.templateData = Except.error em) :
    render env (View.mk cfg st items) cq cnt =
      RendRes.mk (View.mk cfg s2 items2) cnt
        (uplog ++ [Ev.trig cfg.className "beforerender" ""] ++ cllog ++
         [Ev.trig cfg.className "error"
           ("Template data is invalid in view \"" ++ cfg.className ++ "\". Message: \"" ++
            em ++ "\"")])
        (JsOutcome.norm RRet.rfalse) := by
  unfold render
  simp [h1, h2, hupd, hel, hap, hclear, View.stOf, heng]
  split
  · rename_i a hcl
    rw [hclear] at a
    simp at a
  · rename_i a hcl
    split
    · rename_i hcond
      exfalso
      apply hdata
      simpa using hcond
    · rfl

theorem render_success_leaf (env : Env) (cfg : Cfg) (st : St) (items : Items) (cq : JSVal)
    (cnt : Nat) (st1 : St) (uplog : List Ev) (s2 : St) (cllog : List Ev) (mkup : Markup)
    (h1 : jsTruthy cfg.elPath = true)
    (h2 : cfg.template = JSVal.jsNull ∨
      (env.tplClass (cfg.templateNs ++ "." ++ jsToString cfg.template)).isSome = true)
    (hupd : updateEl env cfg st cq = UpdRes.mk st1 uplog none)
    (hel : elMissing st1.el = false)
    (hap : hookApproves cfg.beforeRenderRet = true)
    (hclear : clearV (View.mk cfg st1 items) =
      StepRes.mk (View.mk cfg s2 Items.jsNull) cllog (JsOutcome.norm ()))
    (hdata : ¬ ((s2.tpl = JSVal.str "" ∨ ¬ isString s2.tpl = true) ∨
      (¬ isObject s2.templateData = true ∧ s2.templateData ≠ JSVal.jsNull)))
    (heng : env.engine (jsStr s2.tpl) s2.templateData = Except.ok mkup) :
    render env (View.mk cfg st items) cq cnt =
      RendRes.mk (View.mk cfg { elAppend s2 mkup with rendered := true } Items.jsNull) cnt
        (uplog ++ [Ev.trig cfg.className "beforerender" ""] ++ cllog ++
         [Ev.trig cfg.className "render" ""])
        (JsOutcome.norm RRet.rself) := by
  unfold render
  simp [h1, h2, hupd, hel, hap, hclear, View.stOf, View.itemsOf, heng, renderFinish]
  split
  · rename_i a hcl
    rw [hclear] at a
    simp at a
  · rename_i a hcl
    split
    · rename_i hcond
      exfalso
      apply hdata
      simpa using hcond
    · split
      · rfl
      · rename_i l hit
        rw [hclear] at hit
        simp [View.itemsOf] at hit

theorem render_deficit_throws (env : Env) (cfg : Cfg) (st : St) (items : Items) (cq : JSVal)
    (cnt : Nat) (st1 : St) (uplog : List Ev) (s2 : St) (l : Slots) (cllog : List Ev)
    (mkup : Markup)
    (h1 : jsTruthy cfg.elPath = true)
    (h2 : cfg.template = JSVal.jsNull ∨
      (env.tplClass (cfg.templateNs ++ "." ++ jsToString cfg.template)).isSome = true)
    (hupd : updateEl env cfg st cq = UpdRes.mk st1 uplog none)
    (hel : elMissing st1.el = false)
    (hap : hookApproves cfg.beforeRenderRet = true)
    (hclear : clearV (View.mk cfg st1 items) =
      StepRes.mk (View.mk cfg s2 (Items.arr l)) cllog (JsOutcome.norm ()))
    (hdata : ¬ ((s2.tpl = JSVal.str "" ∨ ¬ isString s2.tpl = true) ∨
      (¬ isObject s2.templateData = true ∧ s2.templateData ≠ JSVal.jsNull)))
    (heng : env.engine (jsStr s2.tpl) s2.templateData = Except.ok mkup)
    (hlen : Slots.length l > 0)
    (hcount : elFindCount (elAppend s2 mkup) cfg.containerCls < Slots.length l) :
    render env (View.mk cfg st items) cq cnt =
      RendRes.mk (View.mk cfg (elAppend s2 mkup) (Items.arr l)) cnt
        (uplog ++ [Ev.trig cfg.className "beforerender" ""] ++ cllog)
        (JsOutcome.thrown
          ("Template of view \"" ++ cfg.className ++
           "\" doesn\x27t contain enough containers for nested views. Expected " ++
           Nat.repr (Slots.length l) ++ ".")) := by
  unfold render
  simp [h1, h2, hupd, hel, hap, hclear, View.stOf, View.itemsOf, heng, hlen, hcount]
  split
  · rename_i a hcl
    rw [hclear] at a
    simp at a
  · rename_i a hcl
    split
    · rename_i hcond
      exfalso
      apply hdata
      simpa using hcond
    · split
      · rename_i hit
        rw [hclear] at hit
        simp [View.itemsOf] at hit
      · rename_i lx hit
        rw [hclear] at hit
        simp only [View.itemsOf, Items.arr.injEq] at hit
        subst hit
        simp [hlen, hcount]

theorem render_success_children (env : Env) (cfg : Cfg) (st : St) (items : Items) (cq : JSVal)
    (cnt : Nat) (st1 : St) (uplog : List Ev) (s2 : St) (l : Slots) (cllog : List Ev)
    (mkup : Markup) (l2 : Slots) (cnt2 : Nat) (looplog : List Ev)
    (h1 : jsTruthy cfg.elPath = true)
    (h2 : cfg.template = JSVal.jsNull ∨
      (env.tplClass (cfg.templateNs ++ "." ++ jsToString cfg.template)).isSome = true)
    (hupd : updateEl env cfg st cq = UpdRes.mk st1 uplog none)
    (hel : elMissing st1.el = false)
    (hap : hookApproves cfg.beforeRenderRet = true)
    (hclear : clearV (View.mk cfg st1 items) =
      StepRes.mk (View.mk cfg s2 (Items.arr l)) cllog (JsOutcome.norm ()))
    (hdata : ¬ ((s2.tpl = JSVal.str "" ∨ ¬ isString s2.tpl = true) ∨
      (¬ isObject s2.templateData = true ∧ s2.templateData ≠ JSVal.jsNull)))
    (heng : env.engine (jsStr s2.tpl) s2.templateData = Except.ok mkup)
    (hlen : Slots.length l > 0)
    (hcount : ¬ elFindCount (elAppend s2 mkup) cfg.containerCls < Slots.length l)
    (hloop : renderSlots env cfg.autoIncrementId cfg.className 0 cnt l =
      RendSlotsRes.mk l2 cnt2 looplog (JsOutcome.norm ())) :
    render env (View.mk cfg st items) cq cnt =
      RendRes.mk (View.mk cfg { elAppend s2 mkup with rendered := true } (Items.arr l2)) cnt2
        (uplog ++ [Ev.trig cfg.className "beforerender" ""] ++ cllog ++ looplog ++
         [Ev.trig cfg.className "render" ""])
        (JsOutcome.norm RRet.rself) := by
  unfold render
  simp [h1, h2, hupd, hel, hap, hclear, View.stOf, View.itemsOf, heng, hlen, hcount, hloop,
        renderFinish]
  split
  · rename_i a hcl
    rw [hclear] at a
    simp at a
  · rename_i a hcl
    split
    · rename_i hcond
      exfalso
      apply hdata
      simpa using hcond
    · split
      · rename_i hit
        rw [hclear] at hit
        simp [View.itemsOf] at hit
      · rename_i lx hit
        rw [hclear] at hit
        simp only [View.itemsOf, Items.arr.injEq] at hit
        subst hit
        simp [hlen, hcount, hloop]

/-- CLAIM C2 (amended): render returns false exactly on the reported
failure paths (unset element path, unresolvable template, missing root
element, invalid template data, templating-engine fault); it returns
the node itself BOTH on success and on the path where onBeforeRender
returns a non-approving value, so a caller cannot distinguish
cancellation from success by truthiness of the result. -/
theorem c2_render_return_contract (env : Env) (cfg : Cfg) (st : St) (items : Items)
    (cq : JSVal) (cnt : Nat) (st1 : St) (uplog : List Ev) (s2 : St) (items2 : Items)
    (cllog : List Ev) (em : String) (mkup : Markup) :
    (jsTruthy cfg.elPath = false →
      (render env (View.mk cfg st items) cq cnt).out = JsOutcome.norm RRet.rfalse) ∧
    (jsTruthy cfg.elPath = true →
     ¬ (cfg.template = JSVal.jsNull ∨
        (env.tplClass (cfg.templateNs ++ "." ++ jsToString cfg.template)).isSome = true) →
      (render env (View.mk cfg st items) cq cnt).out = JsOutcome.norm RRet.rfalse) ∧
    (jsTruthy cfg.elPath = true →
     (cfg.template = JSVal.jsNull ∨
      (env.tplClass (cfg.templateNs ++ "." ++ jsToString cfg.template)).isSome = true) →
     updateEl env cfg st cq = UpdRes.mk st1 uplog none →
     elMissing st1.el = true →
      (render env (View.mk cfg st items) cq cnt).out = JsOutcome.norm RRet.rfalse) ∧
    (jsTruthy cfg.elPath = true →
     (cfg.template = JSVal.jsNull ∨
      (env.tplClass (cfg.templateNs ++ "." ++ jsToString cfg.template)).isSome = true) →
     updateEl env cfg st cq = UpdRes.mk st1 uplog none →
     elMissing st1.el = false →
     hookApproves cfg.beforeRenderRet = false →
      (render env (View.mk cfg st items) cq cnt).out = JsOutcome.norm RRet.rself) ∧
    (jsTruthy cfg.elPath = true →
     (cfg.template = JSVal.jsNull ∨
      (env.tplClass (cfg.templateNs ++ "." ++ jsToString cfg.template)).isSome = true) →
     updateEl env cfg st cq = UpdRes.mk st1 uplog none →
     elMissing st1.el = false →
     hookApproves cfg.beforeRenderRet = true →
     clearV (View.mk cfg st1 items) =
       StepRes.mk (View.mk cfg s2 items2) cllog (JsOutcome.norm ()) →
     ((s2.tpl = JSVal.str "" ∨ ¬ isString s2.tpl = true) ∨
      (¬ isObject s2.templateData = true ∧ s2.templateData ≠ JSVal.jsNull)) →
      (render env (View.mk cfg st items) cq cnt).out = JsOutcome.norm RRet.rfalse) ∧
    (jsTruthy cfg.elPath = true →
     (cfg.template = JSVal.jsNull ∨
      (env.tplClass (cfg.templateNs ++ "." ++ jsToString cfg.template)).isSome = true) →
     updateEl env cfg st cq = UpdRes.mk st1 uplog none →
     elMissing st1.el = false →
     hookApproves cfg.beforeRenderRet = true →
     clearV (View.mk cfg st1 items) =
       StepRes.mk (View.mk cfg s2 items2) cllog (JsOutcome.norm ()) →
     ¬ ((s2.tpl = JSVal.str "" ∨ ¬ isString s2.tpl = true) ∨
        (¬ isObject s2.templateData = true ∧ s2.templateData ≠ JSVal.jsNull)) →
     env.engine (jsStr s2.tpl) s2.templateData = Except.error em →
      (render env (View.mk cfg st items) cq cnt).out = JsOutcome.norm RRet.rfalse) ∧
    (jsTruthy cfg.elPath = true →
     (cfg.template = JSVal.jsNull ∨
      (env.tplClass (cfg.templateNs ++ "." ++ jsToString cfg.template)).isSome = true) →
     updateEl env cfg st cq = UpdRes.mk st1 uplog none →
     elMissing st1.el = false →
     hookApproves cfg.beforeRenderRet = true →
     clearV (View.mk cfg st1 items) =
       StepRes.mk (View.mk cfg s2 Items.jsNull) cllog (JsOutcome.norm ()) →
     ¬ ((s2.tpl = JSVal.str "" ∨ ¬ isString s2.tpl = true) ∨
        (¬ isObject s2.templateData = true ∧ s2.templateData ≠ JSVal.jsNull)) →
     env.engine (jsStr s2.tpl) s2.templateData = Except.ok mkup →
      (render env (View.mk cfg st items) cq cnt).out = JsOutcome.norm RRet.rself) := by
  refine ⟨?_, ?_, ?_, ?_, ?_, ?_, ?_⟩
  · intro h
    rw [render_elPath_unset env cfg st items cq cnt h]
  · intro h1 h2
    rw [render_template_unresolved env cfg st items cq cnt h1 h2]
  · intro h1 h2 hupd hel
    rw [render_el_not_found env cfg st items cq cnt st1 uplog h1 h2 hupd hel]
  · intro h1 h2 hupd hel hap
    rw [render_cancelled env cfg st items cq cnt st1 uplog h1 h2 hupd hel hap]
  · intro h1 h2 hupd hel hap hclear hdata
    rw [render_data_invalid env cfg st items cq cnt st1 uplog s2 items2 cllog
      h1 h2 hupd hel hap hclear hdata]
  · intro h1 h2 hupd hel hap hclear hdata heng
    rw [render_engine_fault env cfg st items cq cnt st1 uplog s2 items2 cllog em
      h1 h2 hupd hel hap hclear hdata heng]
  · intro h1 h2 hupd hel hap hclear hdata heng
    rw [render_success_leaf env cfg st items cq cnt st1 uplog s2 cllog mkup
      h1 h2 hupd hel hap hclear hdata heng]

/-- Witness for C2 (amended), exercising the cancellation conjunct and
the success conjunct of the contract on a concrete view. -/
theorem c2_render_return_contract_witness :
    (jsTruthy demoCfg.elPath = true ∧
     ((demoCfg.template = JSVal.jsNull ∨
       (demoEnv.tplClass
         (demoCfg.templateNs ++ "." ++ jsToString demoCfg.template)).isSome = true)) ∧
     updateEl demoEnv { demoCfg with beforeRenderRet := JSVal.bool false }
         (constructedSt demoEnv demoCfg) JSVal.undef =
       UpdRes.mk { constructedSt demoEnv demoCfg with el := some demoEl } [] none ∧
     elMissing ({ constructedSt demoEnv demoCfg with el := some demoEl } : St).el = false ∧
     hookApproves (JSVal.bool false) = false) ∧
    (render demoEnv
        (View.mk { demoCfg with beforeRenderRet := JSVal.bool false }
          (constructedSt demoEnv demoCfg) Items.jsNull)
        JSVal.undef 0).out = JsOutcome.norm RRet.rself := by
  refine ⟨⟨by decide, by decide, by rfl, by decide, by decide⟩, ?_⟩
  exact (c2_render_return_contract demoEnv { demoCfg with beforeRenderRet := JSVal.bool false }
      (constructedSt demoEnv demoCfg) Items.jsNull JSVal.undef 0
      { constructedSt demoEnv demoCfg with el := some demoEl } [] initialSt Items.jsNull []
      "" { html := "", slots := [] }).2.2.2.1
    (by decide)
    (by decide)
    (by rfl)
    (by decide)
    (by decide)

/-- CLAIM C3 counterexample: on a previously rendered node whose data
mapping is invalid (a number), render emits the error and returns
false, but the prior state is NOT left intact: the clear step has
already run, so the rendered flag drops from true to false and the
previous DOM content is removed before the validation fails. -/
theorem c3_prior_state_destroyed_cex :
    demoStRendered.rendered = true ∧
    (render demoEnv (View.mk demoCfgMain demoStRendered Items.jsNull) JSVal.undef 0).out =
      JsOutcome.norm RRet.rfalse ∧
    (render demoEnv (View.mk demoCfgMain demoStRendered Items.jsNull) JSVal.undef 0).view.stOf.rendered =
      false ∧
    (render demoEnv (View.mk demoCfgMain demoStRendered Items.jsNull) JSVal.undef 0).log =
      [Ev.trig "App.view.Demo" "beforerender" "",
       Ev.trig "App.view.Demo" "beforeclear" "",
       Ev.elOff "App.view.Demo", Ev.childrenRemove "App.view.Demo",
       Ev.trig "App.view.Demo" "clear" "",
       Ev.trig "App.view.Demo" "error" "Invalid template data in view: \"App.view.Demo\""] := by
  refine ⟨by decide, ?_, ?_, ?_⟩ <;> (unfold render; decide)

/-- CLAIM C3 (amended): the unset-element-path and unresolvable
template failures abort with an error notification, a false result and
the whole view state intact; the missing-anchor failure aborts with an
error, a false result and the rendered flag unchanged; the
invalid-data-mapping and templating-fault failures emit the error and
return false but only after the clear step has discarded the previous
rendered state, so the view left behind is the cleared one; and a
duplicate-anchor match merely emits the error notification, after
which the render proceeds and returns the node itself. -/
theorem c3_error_reporting_amended (env : Env) (cfg : Cfg) (st : St) (items : Items)
    (cq : JSVal) (cnt : Nat) (st1 : St) (uplog : List Ev) (s2 : St) (items2 : Items)
    (cllog : List Ev) (em : String) (mkup : Markup) (e2 : El) :
    (jsTruthy cfg.elPath = false →
      render env (View.mk cfg st items) cq cnt =
        RendRes.mk (View.mk cfg st items) cnt
          [Ev.trig cfg.className "error"
            ("Element css path (elPath) is not set for class \"" ++ cfg.className ++ "\"")]
          (JsOutcome.norm RRet.rfalse)) ∧
    (jsTruthy cfg.elPath = true →
     ¬ (cfg.template = JSVal.jsNull ∨
        (env.tplClass (cfg.templateNs ++ "." ++ jsToString cfg.template)).isSome = true) →
      render env (View.mk cfg st items) cq cnt =
        RendRes.mk (View.mk cfg st items) cnt
          [Ev.trig cfg.className "error"
            ("Invalid template in view: \"" ++ cfg.className ++ "\"")]
          (JsOutcome.norm RRet.rfalse)) ∧
    (jsTruthy cfg.elPath = true →
     (cfg.template = JSVal.jsNull ∨
      (env.tplClass (cfg.templateNs ++ "." ++ jsToString cfg.template)).isSome = true) →
     updateEl env cfg st cq = UpdRes.mk st1 uplog none →
     elMissing st1.el = true →
      render env (View.mk cfg st items) cq cnt =
        RendRes.mk (View.mk cfg st1 items) cnt
          (uplog ++ [Ev.trig cfg.className "error"
            ("Root element (View::el) not found for view \"" ++ cfg.className ++ "\"")])
          (JsOutcome.norm RRet.rfalse) ∧ st1.rendered = st.rendered) ∧
    (jsTruthy cfg.elPath = true →
     (cfg.template = JSVal.jsNull ∨
      (env.tplClass (cfg.templateNs ++ "." ++ jsToString cfg.template)).isSome = true) →
     updateEl env cfg st cq = UpdRes.mk st1 uplog none →
     elMissing st1.el = false →
     hookApproves cfg.beforeRenderRet = true →
     clearV (View.mk cfg st1 items) =
       StepRes.mk (View.mk cfg s2 items2) cllog (JsOutcome.norm ()) →
     ((s2.tpl = JSVal.str "" ∨ ¬ isString s2.tpl = true) ∨
      (¬ isObject s2.templateData = true ∧ s2.templateData ≠ JSVal.jsNull)) →
      (render env (View.mk cfg st items) cq cnt).out = JsOutcome.norm RRet.rfalse ∧
      (render env (View.mk cfg st items) cq cnt).view = View.mk cfg s2 items2 ∧
      Ev.trig cfg.className "error"
          ("Invalid template data in view: \"" ++ cfg.className ++ "\"") ∈
        (render env (View.mk cfg st items) cq cnt).log) ∧
    (jsTruthy cfg.elPath = true →
     (cfg.template = JSVal.jsNull ∨
      (env.tplClass (cfg.templateNs ++ "." ++ jsToString cfg.template)).isSome = true) →
     updateEl env cfg st cq = UpdRes.mk st1 uplog none →
     elMissing st1.el = false →
     hookApproves cfg.beforeRenderRet = true →
     clearV (View.mk cfg st1 items) =
       StepRes.mk (View.mk cfg s2 items2) cllog (JsOutcome.norm ()) →
     ¬ ((s2.tpl = JSVal.str "" ∨ ¬ isString s2.tpl = true) ∨
        (¬ isObject s2.templateData = true ∧ s2.templateData ≠ JSVal.jsNull)) →
     env.engine (jsStr s2.tpl) s2.templateData = Except.error em →
      (render env (View.mk cfg st items) cq cnt).out = JsOutcome.norm RRet.rfalse ∧
      (render env (View.mk cfg st items) cq cnt).view = View.mk cfg s2 items2 ∧
      Ev.trig cfg.className "error"
          ("Template data is invalid in view \"" ++ cfg.className ++ "\". Message: \"" ++
           em ++ "\"") ∈
        (render env (View.mk cfg st items) cq cnt).log) ∧
    (st.el = none → isString cq = false → st.initEvents = false →
     env.query
         (if cfg.elPath = JSVal.str cfg.autoIncrementId then JSVal.jsNull else cfg.elPath) =
       Except.ok e2 →
     e2.len > 1 →
     jsTruthy cfg.elPath = true →
     (cfg.template = JSVal.jsNull ∨
      (env.tplClass (cfg.templateNs ++ "." ++ jsToString cfg.template)).isSome = true) →
     hookApproves cfg.beforeRenderRet = true →
     clearV (View.mk cfg { st with el := some e2 } items) =
       StepRes.mk (View.mk cfg s2 Items.jsNull) cllog (JsOutcome.norm ()) →
     ¬ ((s2.tpl = JSVal.str "" ∨ ¬ isString s2.tpl = true) ∨
        (¬ isObject s2.templateData = true ∧ s2.templateData ≠ JSVal.jsNull)) →
     env.engine (jsStr s2.tpl) s2.templateData = Except.ok mkup →
      (render env (View.mk cfg st items) cq cnt).out = JsOutcome.norm RRet.rself ∧
      Ev.trig cfg.className "error"
          ("Found duplicate ids for view \"" ++ cfg.className ++ "\"") ∈
        (render env (View.mk cfg st items) cq cnt).log) := by
  refine ⟨?_, ?_, ?_, ?_, ?_, ?_⟩
  · intro h
    exact render_elPath_unset env cfg st items cq cnt h
  · intro h1 h2
    exact render_template_unresolved env cfg st items cq cnt h1 h2
  · intro h1 h2 hupd hel
    refine ⟨render_el_not_found env cfg st items cq cnt st1 uplog h1 h2 hupd hel, ?_⟩
    have := updateEl_rendered env cfg st cq
    rw [hupd] at this
    exact this
  · intro h1 h2 hupd hel hap hclear hdata
    rw [render_data_invalid env cfg st items cq cnt st1 uplog s2 items2 cllog
      h1 h2 hupd hel hap hclear hdata]
    refine ⟨rfl, rfl, ?_⟩
    simp
  · intro h1 h2 hupd hel hap hclear hdata heng
    rw [render_engine_fault env cfg st items cq cnt st1 uplog s2 items2 cllog em
      h1 h2 hupd hel hap hclear hdata heng]
    refine ⟨rfl, rfl, ?_⟩
    simp
  · intro h0 hcq hinit hq hlen h1 h2 hap hclear hdata heng
    have hupd := updateEl_duplicate env cfg st cq e2 h0 hcq hinit hq hlen
    have hel : elMissing ({ st with el := some e2 } : St).el = false := by
      simp [elMissing]
      omega
    rw [render_success_leaf env cfg st items cq cnt { st with el := some e2 }
      [Ev.trig cfg.className "error"
        ("Found duplicate ids for view \"" ++ cfg.className ++ "\"")]
      s2 cllog mkup h1 h2 hupd hel hap hclear hdata heng]
    refine ⟨rfl, ?_⟩
    simp

/-- Witness for C3 (amended), exercising the invalid-data-mapping
conjunct on the previously rendered sample view. -/
theorem c3_error_reporting_amended_witness :
    (jsTruthy demoCfgMain.elPath = true ∧
     (demoCfgMain.template = JSVal.jsNull ∨
      (demoEnv.tplClass
        (demoCfgMain.templateNs ++ "." ++ jsToString demoCfgMain.template)).isSome = true) ∧
     updateEl demoEnv demoCfgMain demoStRendered JSVal.undef =
       UpdRes.mk demoStRendered [] none ∧
     elMissing demoStRendered.el = false ∧
     hookApproves demoCfgMain.beforeRenderRet = true ∧
     clearV (View.mk demoCfgMain demoStRendered Items.jsNull) =
       StepRes.mk (View.mk demoCfgMain { demoStRendered with rendered := false } Items.jsNull)
         [Ev.trig "App.view.Demo" "beforeclear" "", Ev.elOff "App.view.Demo",
          Ev.childrenRemove "App.view.Demo", Ev.trig "App.view.Demo" "clear" ""]
         (JsOutcome.norm ()) ∧
     ¬ isObject ({ demoStRendered with rendered := false } : St).templateData = true) ∧
    ((render demoEnv (View.mk demoCfgMain demoStRendered Items.jsNull) JSVal.undef 0).out =
      JsOutcome.norm RRet.rfalse ∧
     (render demoEnv (View.mk demoCfgMain demoStRendered Items.jsNull) JSVal.undef 0).view =
      View.mk demoCfgMain { demoStRendered with rendered := false } Items.jsNull ∧
     Ev.trig demoCfgMain.className "error"
         ("Invalid template data in view: \"" ++ demoCfgMain.className ++ "\"") ∈
       (render demoEnv (View.mk demoCfgMain demoStRendered Items.jsNull) JSVal.undef 0).log) := by
  refine ⟨⟨by decide, by decide, by rfl, by decide, by decide, by rfl, by decide⟩, ?_⟩
  exact (c3_error_reporting_amended demoEnv demoCfgMain demoStRendered Items.jsNull
      JSVal.undef 0 demoStRendered [] { demoStRendered with rendered := false } Items.jsNull
      [Ev.trig "App.view.Demo" "beforeclear" "", Ev.elOff "App.view.Demo",
       Ev.childrenRemove "App.view.Demo", Ev.trig "App.view.Demo" "clear" ""]
      "" { html := "", slots := [] } demoEl).2.2.2.1
    (by decide) (by decide) (by rfl) (by decide) (by decide) (by rfl) (by decide)

/-- CLAIM C4: for every lifecycle transition (render, clear, show,
hide, disable, enable, destroy), a before-hook result that is neither
undefined nor true makes the transition a silent no-op: the view is
returned unchanged, only the before notification is emitted (no error,
no after notification, no completion notification), nothing is thrown,
and for render the returned value is the node itself. For render the
statement assumes the element was already resolved, so the transition
reaches its hook without resolution side effects. -/
theorem c4_hook_cancellation (env : Env) (cfg : Cfg) (st : St) (items : Items) (cq : JSVal)
    (cssPaths : JSVal) (cnt : Nat) (e : El) :
    (st.rendered = true → hookApproves cfg.beforeClearRet = false →
      clearV (View.mk cfg st items) =
        StepRes.mk (View.mk cfg st items) [Ev.trig cfg.className "beforeclear" ""]
          (JsOutcome.norm ())) ∧
    (st.rendered = true → hookApproves cfg.beforeShowRet = false →
      showV (View.mk cfg st items) =
        StepRes.mk (View.mk cfg st items) [Ev.trig cfg.className "beforeshow" ""]
          (JsOutcome.norm ())) ∧
    (st.rendered = true → hookApproves cfg.beforeHideRet = false →
      hideV (View.mk cfg st items) =
        StepRes.mk (View.mk cfg st items) [Ev.trig cfg.className "beforehide" ""]
          (JsOutcome.norm ())) ∧
    (st.rendered = true → hookApproves cfg.beforeDisableRet = false →
      disableV (View.mk cfg st items) =
        StepRes.mk (View.mk cfg st items) [Ev.trig cfg.className "beforedisable" ""]
          (JsOutcome.norm ())) ∧
    (st.rendered = true → hookApproves cfg.beforeEnableRet = false →
      enableV (View.mk cfg st items) cssPaths =
        StepRes.mk (View.mk cfg st items) [Ev.trig cfg.className "beforeenable" ""]
          (JsOutcome.norm ())) ∧
    (hookApproves cfg.beforeDestroyRet = false →
      destroyV (View.mk cfg st items) =
        StepRes.mk (View.mk cfg st items) [Ev.trig cfg.className "beforedestroy" ""]
          (JsOutcome.norm ())) ∧
    (st.el = some e → e.len ≠ 0 → isString cq = false →
     jsTruthy cfg.elPath = true →
     (cfg.template = JSVal.jsNull ∨
      (env.tplClass (cfg.templateNs ++ "." ++ jsToString cfg.template)).isSome = true) →
     hookApproves cfg.beforeRenderRet = false →
      render env (View.mk cfg st items) cq cnt =
        RendRes.mk (View.mk cfg st items) cnt [Ev.trig cfg.className "beforerender" ""]
          (JsOutcome.norm RRet.rself)) := by
  refine ⟨?_, ?_, ?_, ?_, ?_, ?_, ?_⟩
  · intro hr hap
    unfold clearV
    simp [hr, hap]
  · intro hr hap
    unfold showV
    simp [hr, hap]
  · intro hr hap
    unfold hideV
    simp [hr, hap]
  · intro hr hap
    unfold disableV
    simp [hr, hap]
  · intro hr hap
    unfold enableV
    simp [hr, hap]
  · intro hap
    unfold destroyV
    simp [hap]
  · intro hsome hlen hcq h1 h2 hap
    have hupd := updateEl_resolved_noop env cfg st cq e hsome hlen hcq
    have hel : elMissing st.el = false := by
      rw [hsome]
      simp [elMissing, hlen]
    rw [render_cancelled env cfg st items cq cnt st [] h1 h2 hupd hel hap]
    simp

/-- Witness for C4 on a concrete rendered view whose hooks all return
the string no (neither undefined nor true). -/
theorem c4_hook_cancellation_witness :
    (({ demoCfg with
          beforeRenderRet := JSVal.str "no", beforeClearRet := JSVal.str "no",
          beforeShowRet := JSVal.str "no", beforeHideRet := JSVal.str "no",
          beforeDisableRet := JSVal.str "no", beforeEnableRet := JSVal.str "no",
          beforeDestroyRet := JSVal.str "no" } : Cfg).beforeClearRet = JSVal.str "no") ∧
    ({ initialSt with rendered := true, el := some demoEl } : St).rendered = true ∧
    hookApproves (JSVal.str "no") = false ∧
    clearV (View.mk
        { demoCfg with
            beforeRenderRet := JSVal.str "no", beforeClearRet := JSVal.str "no",
            beforeShowRet := JSVal.str "no", beforeHideRet := JSVal.str "no",
            beforeDisableRet := JSVal.str "no", beforeEnableRet := JSVal.str "no",
            beforeDestroyRet := JSVal.str "no" }
        { initialSt with rendered := true, el := some demoEl } Items.jsNull) =
      StepRes.mk (View.mk
        { demoCfg with
            beforeRenderRet := JSVal.str "no", beforeClearRet := JSVal.str "no",
            beforeShowRet := JSVal.str "no", beforeHideRet := JSVal.str "no",
            beforeDisableRet := JSVal.str "no", beforeEnableRet := JSVal.str "no",
            beforeDestroyRet := JSVal.str "no" }
        { initialSt with rendered := true, el := some demoEl } Items.jsNull)
        [Ev.trig "App.view.Demo" "beforeclear" ""] (JsOutcome.norm ()) ∧
    destroyV (View.mk
        { demoCfg with
            beforeRenderRet := JSVal.str "no", beforeClearRet := JSVal.str "no",
            beforeShowRet := JSVal.str "no", beforeHideRet := JSVal.str "no",
            beforeDisableRet := JSVal.str "no", beforeEnableRet := JSVal.str "no",
            beforeDestroyRet := JSVal.str "no" }
        { initialSt with rendered := true, el := some demoEl } Items.jsNull) =
      StepRes.mk (View.mk
        { demoCfg with
            beforeRenderRet := JSVal.str "no", beforeClearRet := JSVal.str "no",
            beforeShowRet := JSVal.str "no", beforeHideRet := JSVal.str "no",
            beforeDisableRet := JSVal.str "no", beforeEnableRet := JSVal.str "no",
            beforeDestroyRet := JSVal.str "no" }
        { initialSt with rendered := true, el := some demoEl } Items.jsNull)
        [Ev.trig "App.view.Demo" "beforedestroy" ""] (JsOutcome.norm ()) ∧
    render demoEnv (View.mk
        { demoCfg with
            beforeRenderRet := JSVal.str "no", beforeClearRet := JSVal.str "no",
            beforeShowRet := JSVal.str "no", beforeHideRet := JSVal.str "no",
            beforeDisableRet := JSVal.str "no", beforeEnableRet := JSVal.str "no",
            beforeDestroyRet := JSVal.str "no" }
        { initialSt with rendered := true, el := some demoEl } Items.jsNull) JSVal.undef 0 =
      RendRes.mk (View.mk
        { demoCfg with
            beforeRenderRet := JSVal.str "no", beforeClearRet := JSVal.str "no",
            beforeShowRet := JSVal.str "no", beforeHideRet := JSVal.str "no",
            beforeDisableRet := JSVal.str "no", beforeEnableRet := JSVal.str "no",
            beforeDestroyRet := JSVal.str "no" }
        { initialSt with rendered := true, el := some demoEl } Items.jsNull) 0
        [Ev.trig "App.view.Demo" "beforerender" ""] (JsOutcome.norm RRet.rself) := by
  have h := c4_hook_cancellation demoEnv
    { demoCfg with
        beforeRenderRet := JSVal.str "no", beforeClearRet := JSVal.str "no",
        beforeShowRet := JSVal.str "no", beforeHideRet := JSVal.str "no",
        beforeDisableRet := JSVal.str "no", beforeEnableRet := JSVal.str "no",
        beforeDestroyRet := JSVal.str "no" }
    { initialSt with rendered := true, el := some demoEl } Items.jsNull JSVal.undef
    JSVal.undef 0 demoEl
  exact ⟨by decide, by decide, by decide,
    h.1 (by decide) (by decide),
    h.2.2.2.2.2.1 (by decide),
    h.2.2.2.2.2.2 (by rfl) (by decide) (by decide) (by decide) (by decide) (by decide)⟩

theorem updateEl_thrownMsg_none (env : Env) (cfg : Cfg) (st : St) (cq : JSVal)
    (h0 : st.el = none) : (updateEl env cfg st cq).thrownMsg = none := by
  unfold updateEl
  cases hb : isString cq <;>
    rcases hq1 : env.query cq with e | m <;>
      rcases hq2 : env.query
          (if cfg.elPath = JSVal.str cfg.autoIncrementId then JSVal.jsNull else cfg.elPath)
        with e2 | m2 <;>
      simp only [hq1, hq2, h0, hb, Bool.false_eq_true, if_true, if_false] <;>
      repeat' split <;> first
      | rfl
      | simp_all [elMissing]
      | (split <;> rfl)

theorem clearV_leaf (cfg : Cfg) (st : St) :
    ∃ s2 lg, clearV (View.mk cfg st Items.jsNull) =
      StepRes.mk (View.mk cfg s2 Items.jsNull) lg (JsOutcome.norm ()) := by
  unfold clearV
  dsimp only
  split
  · split
    · unfold clearFinish
      dsimp only
      split <;> exact ⟨_, _, rfl⟩
    · exact ⟨_, _, rfl⟩
  · exact ⟨_, _, rfl⟩

theorem render_leaf_norm (env : Env) (cfg : Cfg) (st : St) (cq : JSVal) (cnt : Nat)
    (h0 : st.el = none) :
    ∃ r, (render env (View.mk cfg st Items.jsNull) cq cnt).out = JsOutcome.norm r := by
  by_cases h1 : jsTruthy cfg.elPath = true
  case neg =>
    refine ⟨RRet.rfalse, ?_⟩
    rw [render_elPath_unset env cfg st Items.jsNull cq cnt (by simpa using h1)]
  by_cases h2 : (cfg.template = JSVal.jsNull ∨
    (env.tplClass (cfg.templateNs ++ "." ++ jsToString cfg.template)).isSome = true)
  case neg =>
    refine ⟨RRet.rfalse, ?_⟩
    rw [render_template_unresolved env cfg st Items.jsNull cq cnt h1 h2]
  have hmsg := updateEl_thrownMsg_none env cfg st cq h0
  have hupd : updateEl env cfg st cq =
      UpdRes.mk (updateEl env cfg st cq).st (updateEl env cfg st cq).log none := by
    rw [← hmsg]
  by_cases hel : elMissing (updateEl env cfg st cq).st.el = true
  case pos =>
    refine ⟨RRet.rfalse, ?_⟩
    rw [render_el_not_found env cfg st Items.jsNull cq cnt _ _ h1 h2 hupd hel]
  have helf : elMissing (updateEl env cfg st cq).st.el = false := by simpa using hel
  by_cases hap : hookApproves cfg.beforeRenderRet = true
  case neg =>
    refine ⟨RRet.rself, ?_⟩
    rw [render_cancelled env cfg st Items.jsNull cq cnt _ _ h1 h2 hupd helf
      (by simpa using hap)]
  obtain ⟨s2, lg, hclear⟩ := clearV_leaf cfg (updateEl env cfg st cq).st
  by_cases hdata : ((s2.tpl = JSVal.str "" ∨ ¬ isString s2.tpl = true) ∨
    (¬ isObject s2.templateData = true ∧ s2.templateData ≠ JSVal.jsNull))
  case pos =>
    refine ⟨RRet.rfalse, ?_⟩
    rw [render_data_invalid env cfg st Items.jsNull cq cnt _ _ s2 Items.jsNull lg
      h1 h2 hupd helf hap hclear hdata]
  rcases heng : env.engine (jsStr s2.tpl) s2.templateData with em | mkup
  · refine ⟨RRet.rfalse, ?_⟩
    rw [render_engine_fault env cfg st Items.jsNull cq cnt _ _ s2 Items.jsNull lg em
      h1 h2 hupd helf hap hclear hdata heng]
  · refine ⟨RRet.rself, ?_⟩
    rw [render_success_leaf env cfg st Items.jsNull cq cnt _ _ s2 lg mkup
      h1 h2 hupd helf hap hclear hdata heng]

theorem freshLeafV_spec (v : View) (h : freshLeafV v = true) :
    ∃ cfg st, v = View.mk cfg st Items.jsNull ∧ st.el = none := by
  cases v with
  | mk cfg st items =>
    cases items with
    | jsNull =>
      refine ⟨cfg, st, rfl, ?_⟩
      simp [freshLeafV, Option.isNone_iff_eq_none] at h
      exact h
    | arr l => simp [freshLeafV] at h

theorem renderSlots_leaves_norm (env : Env) (autoId pcls : String) :
    (l : Slots) → ∀ (idx cnt : Nat), freshLeaves l = true →
    ∃ l2 cnt2 lg, renderSlots env autoId pcls idx cnt l =
      RendSlotsRes.mk l2 cnt2 lg (JsOutcome.norm ())
  | Slots.nil => by
      intro idx cnt _
      refine ⟨Slots.nil, cnt, [], ?_⟩
      unfold renderSlots
      rfl
  | Slots.cons Slot.hole tl => by
      intro idx cnt hf
      simp [freshLeaves] at hf
  | Slots.cons (Slot.live v) tl => by
      have ih := renderSlots_leaves_norm env autoId pcls tl
      intro idx cnt hf
      simp only [freshLeaves, Bool.and_eq_true] at hf
      obtain ⟨cfgv, stv, hv, helv⟩ := freshLeafV_spec v hf.1
      subst hv
      unfold renderSlots
      by_cases hauto : (View.mk cfgv stv Items.jsNull).cfgOf.elPath = JSVal.str autoId
      · simp only [hauto, if_true]
        obtain ⟨r, hr⟩ := render_leaf_norm env cfgv stv
          (JSVal.str ("#" ++ (nextViewId cnt).fst)) (nextViewId cnt).snd helv
        have hrfull : render env (View.mk cfgv stv Items.jsNull)
            (JSVal.str ("#" ++ (nextViewId cnt).fst)) (nextViewId cnt).snd =
            RendRes.mk
              (render env (View.mk cfgv stv Items.jsNull)
                (JSVal.str ("#" ++ (nextViewId cnt).fst)) (nextViewId cnt).snd).view
              (render env (View.mk cfgv stv Items.jsNull)
                (JSVal.str ("#" ++ (nextViewId cnt).fst)) (nextViewId cnt).snd).counter
              (render env (View.mk cfgv stv Items.jsNull)
                (JSVal.str ("#" ++ (nextViewId cnt).fst)) (nextViewId cnt).snd).log
              (JsOutcome.norm r) := by
          rw [← hr]
        obtain ⟨tl2, cnt3, lg3, hih⟩ := ih (idx + 1)
          (render env (View.mk cfgv stv Items.jsNull)
            (JSVal.str ("#" ++ (nextViewId cnt).fst)) (nextViewId cnt).snd).counter hf.2
        rw [hrfull, hih]
        exact ⟨_, _, _, rfl⟩
      · simp only [hauto, if_false]
        obtain ⟨r, hr⟩ := render_leaf_norm env cfgv stv JSVal.undef cnt helv
        have hrfull : render env (View.mk cfgv stv Items.jsNull) JSVal.undef cnt =
            RendRes.mk
              (render env (View.mk cfgv stv Items.jsNull) JSVal.undef cnt).view
              (render env (View.mk cfgv stv Items.jsNull) JSVal.undef cnt).counter
              (render env (View.mk cfgv stv Items.jsNull) JSVal.undef cnt).log
              (JsOutcome.norm r) := by
          rw [← hr]
        obtain ⟨tl2, cnt3, lg3, hih⟩ := ih (idx + 1)
          (render env (View.mk cfgv stv Items.jsNull) JSVal.undef cnt).counter hf.2
        rw [hrfull, hih]
        exact ⟨_, _, _, rfl⟩

/-- CLAIM C6: during render of a node with at least one declared
child, once the markup is produced, a placeholder count strictly below
the number of declared children raises a hard thrown Error naming the
class and the expected count (not an error notification, not a partial
render); when the count is at least the number of children (here with
freshly constructed leaf children), no such fault is raised and the
render completes normally. -/
theorem c6_placeholder_check (env : Env) (cfg : Cfg) (st : St) (items : Items) (cq : JSVal)
    (cnt : Nat) (st1 : St) (uplog : List Ev) (s2 : St) (l : Slots) (cllog : List Ev)
    (mkup : Markup)
    (h1 : jsTruthy cfg.elPath = true)
    (h2 : cfg.template = JSVal.jsNull ∨
      (env.tplClass (cfg.templateNs ++ "." ++ jsToString cfg.template)).isSome = true)
    (hupd : updateEl env cfg st cq = UpdRes.mk st1 uplog none)
    (hel : elMissing st1.el = false)
    (hap : hookApproves cfg.beforeRenderRet = true)
    (hclear : clearV (View.mk cfg st1 items) =
      StepRes.mk (View.mk cfg s2 (Items.arr l)) cllog (JsOutcome.norm ()))
    (hdata : ¬ ((s2.tpl = JSVal.str "" ∨ ¬ isString s2.tpl = true) ∨
      (¬ isObject s2.templateData = true ∧ s2.templateData ≠ JSVal.jsNull)))
    (heng : env.engine (jsStr s2.tpl) s2.templateData = Except.ok mkup)
    (hlen : Slots.length l > 0) :
    (elFindCount (elAppend s2 mkup) cfg.containerCls < Slots.length l →
      (render env (View.mk cfg st items) cq cnt).out =
        JsOutcome.thrown
          ("Template of view \"" ++ cfg.className ++
           "\" doesn\x27t contain enough containers for nested views. Expected " ++
           Nat.repr (Slots.length l) ++ ".")) ∧
    (¬ elFindCount (elAppend s2 mkup) cfg.containerCls < Slots.length l →
     freshLeaves l = true →
      (render env (View.mk cfg st items) cq cnt).out = JsOutcome.norm RRet.rself) := by
  constructor
  · intro hcount
    rw [render_deficit_throws env cfg st items cq cnt st1 uplog s2 l cllog mkup
      h1 h2 hupd hel hap hclear hdata heng hlen hcount]
  · intro hcount hfresh
    obtain ⟨l2, cnt2, lg, hloop⟩ :=
      renderSlots_leaves_norm env cfg.autoIncrementId cfg.className l 0 cnt hfresh
    rw [render_success_children env cfg st items cq cnt st1 uplog s2 l cllog mkup l2 cnt2 lg
      h1 h2 hupd hel hap hclear hdata heng hlen hcount hloop]

/-- Witness for C6: a two-children parent whose template produces one
placeholder raises the structural fault; the same children under a
two-placeholder template render normally. -/
theorem c6_placeholder_check_witness :
    (jsTruthy demoCfgOne.elPath = true ∧
     (demoCfgOne.template = JSVal.jsNull ∨
      (demoEnv.tplClass
        (demoCfgOne.templateNs ++ "." ++ jsToString demoCfgOne.template)).isSome = true) ∧
     updateEl demoEnv demoCfgOne (constructedSt demoEnv demoCfgOne) JSVal.undef =
       UpdRes.mk demoStA1 [] none ∧
     elMissing demoStA1.el = false ∧
     hookApproves demoCfgOne.beforeRenderRet = true ∧
     clearV (View.mk demoCfgOne demoStA1 (Items.arr demoSlots2)) =
       StepRes.mk (View.mk demoCfgOne demoStA1 (Items.arr demoSlots2)) []
         (JsOutcome.norm ()) ∧
     demoEnv.engine (jsStr demoStA1.tpl) demoStA1.templateData = Except.ok oneMarkup ∧
     Slots.length demoSlots2 > 0 ∧
     elFindCount (elAppend demoStA1 oneMarkup) demoCfgOne.containerCls <
       Slots.length demoSlots2 ∧
     (render demoEnv
         (View.mk demoCfgOne (constructedSt demoEnv demoCfgOne) (Items.arr demoSlots2))
         JSVal.undef 0).out =
       JsOutcome.thrown
         ("Template of view \"" ++ demoCfgOne.className ++
          "\" doesn\x27t contain enough containers for nested views. Expected " ++
          Nat.repr (Slots.length demoSlots2) ++ ".")) ∧
    (¬ elFindCount (elAppend demoStB1 twoMarkup) demoCfgMain.containerCls <
       Slots.length demoSlots2 ∧
     freshLeaves demoSlots2 = true ∧
     (render demoEnv
         (View.mk demoCfgMain (constructedSt demoEnv demoCfgMain) (Items.arr demoSlots2))
         JSVal.undef 0).out = JsOutcome.norm RRet.rself) := by
  refine ⟨⟨by decide, by decide, by rfl, by decide, by decide, by rfl, by rfl, by decide,
    by decide, ?_⟩, ⟨by decide, by decide, ?_⟩⟩
  · exact (c6_placeholder_check demoEnv demoCfgOne (constructedSt demoEnv demoCfgOne)
      (Items.arr demoSlots2) JSVal.undef 0 demoStA1 [] demoStA1 demoSlots2 [] oneMarkup
      (by decide) (by decide) (by rfl) (by decide) (by decide) (by rfl) (by decide) (by rfl)
      (by decide)).1 (by decide)
  · exact (c6_placeholder_check demoEnv demoCfgMain (constructedSt demoEnv demoCfgMain)
      (Items.arr demoSlots2) JSVal.undef 0 demoStB1 [] demoStB1 demoSlots2 [] twoMarkup
      (by decide) (by decide) (by rfl) (by decide) (by decide) (by rfl) (by decide) (by rfl)
      (by decide)).2 (by decide) (by decide)

mutual
/-- On a tree without holes in which every rendered view still holds
its element handle, hide completes normally and preserves both
properties. -/
theorem hideV_ok : (v : View) → elOkV v = true → noHolesV v = true →
    (hideV v).out = JsOutcome.norm () ∧ elOkV (hideV v).view = true ∧
    noHolesV (hideV v).view = true
  | View.mk cfg st items => by
    intro hok hnh
    simp only [elOkV, Bool.and_eq_true] at hok
    simp only [noHolesV] at hnh
    unfold hideV
    by_cases hr : st.rendered = true
    case neg =>
      simp only [Bool.not_eq_true] at hr
      simp [hr, elOkV, noHolesV, hok.2, hnh, hok.1]
    have hsome : st.el.isSome = true := by
      rcases hok with ⟨h1, _⟩
      rw [hr] at h1
      simpa using h1
    obtain ⟨e, he⟩ := Option.isSome_iff_exists.mp hsome
    by_cases hap : hookApproves cfg.beforeHideRet = true
    case neg =>
      simp only [Bool.not_eq_true] at hap
      simp [hr, hap, he, elOkV, noHolesV, hok.2, hnh]
    cases items with
    | jsNull =>
      simp [hr, hap, he, elOkV, noHolesV, elOkI, noHolesI]
    | arr l =>
      have hl := hideSlots_ok l (by simpa [elOkI] using hok.2) (by simpa [noHolesI] using hnh)
      have hfull : hideSlots l = SlotsRes.mk (hideSlots l).slots (hideSlots l).log
          (JsOutcome.norm ()) := by
        rw [← hl.1]
      rw [hr, hap]
      simp only [if_true]
      rw [hfull]
      dsimp only
      rw [he]
      dsimp only
      refine ⟨rfl, ?_, ?_⟩
      · simp [elOkV, elOkI, hr, hl.2.1]
      · simp [noHolesV, noHolesI, hl.2.2]

theorem hideSlots_ok : (l : Slots) → elOkS l = true → noHolesS l = true →
    (hideSlots l).out = JsOutcome.norm () ∧ elOkS (hideSlots l).slots = true ∧
    noHolesS (hideSlots l).slots = true
  | Slots.nil => by intro _ _; exact ⟨rfl, rfl, rfl⟩
  | Slots.cons (Slot.live v) tl => by
    intro hok hnh
    simp only [elOkS, noHolesS, Bool.and_eq_true] at hok hnh
    have hv := hideV_ok v hok.1 hnh.1
    have htl := hideSlots_ok tl hok.2 hnh.2
    unfold hideSlots
    have hfull : hideV v = StepRes.mk (hideV v).view (hideV v).log (JsOutcome.norm ()) := by
      rw [← hv.1]
    have hfull2 : hideSlots tl = SlotsRes.mk (hideSlots tl).slots (hideSlots tl).log
        (JsOutcome.norm ()) := by
      rw [← htl.1]
    rw [hfull]
    dsimp only
    rw [hfull2]
    dsimp only
    refine ⟨rfl, ?_, ?_⟩
    · simp [elOkS, hv.2.1, htl.2.1]
    · simp [noHolesS, hv.2.2, htl.2.2]
  | Slots.cons Slot.hole tl => by
    intro _ hnh
    simp [noHolesS] at hnh
end

mutual
/-- On a tree without holes in which every rendered view still holds
its element handle, show completes normally and preserves both
properties. -/
theorem showV_ok : (v : View) → elOkV v = true → noHolesV v = true →
    (showV v).out = JsOutcome.norm () ∧ elOkV (showV v).view = true ∧
    noHolesV (showV v).view = true
  | View.mk cfg st items => by
    intro hok hnh
    simp only [elOkV, Bool.and_eq_true] at hok
    simp only [noHolesV] at hnh
    unfold showV
    by_cases hr : st.rendered = true
    case neg =>
      simp only [Bool.not_eq_true] at hr
      simp [hr, elOkV, noHolesV, hok.2, hnh, hok.1]
    have hsome : st.el.isSome = true := by
      rcases hok with ⟨h1, _⟩
      rw [hr] at h1
      simpa using h1
    obtain ⟨e, he⟩ := Option.isSome_iff_exists.mp hsome
    by_cases hap : hookApproves cfg.beforeShowRet = true
    case neg =>
      simp only [Bool.not_eq_true] at hap
      simp [hr, hap, he, elOkV, noHolesV, hok.2, hnh]
    cases items with
    | jsNull =>
      simp [hr, hap, he, elOkV, noHolesV, elOkI, noHolesI]
    | arr l =>
      have hl := showSlots_ok l (by simpa [elOkI] using hok.2) (by simpa [noHolesI] using hnh)
      have hfull : showSlots l = SlotsRes.mk (showSlots l).slots (showSlots l).log
          (JsOutcome.norm ()) := by
        rw [← hl.1]
      rw [hr, hap]
      simp only [if_true]
      rw [hfull]
      dsimp only
      rw [he]
      dsimp only
      refine ⟨rfl, ?_, ?_⟩
      · simp [elOkV, elOkI, hr, hl.2.1]
      · simp [noHolesV, noHolesI, hl.2.2]

theorem showSlots_ok : (l : Slots) → elOkS l = true → noHolesS l = true →
    (showSlots l).out = JsOutcome.norm () ∧ elOkS (showSlots l).slots = true ∧
    noHolesS (showSlots l).slots = true
  | Slots.nil => by intro _ _; exact ⟨rfl, rfl, rfl⟩
  | Slots.cons (Slot.live v) tl => by
    intro hok hnh
    simp only [elOkS, noHolesS, Bool.and_eq_true] at hok hnh
    have hv := showV_ok v hok.1 hnh.1
    have htl := showSlots_ok tl hok.2 hnh.2
    unfold showSlots
    have hfull : showV v = StepRes.mk (showV v).view (showV v).log (JsOutcome.norm ()) := by
      rw [← hv.1]
    have hfull2 : showSlots tl = SlotsRes.mk (showSlots tl).slots (showSlots tl).log
        (JsOutcome.norm ()) := by
      rw [← htl.1]
    rw [hfull]
    dsimp only
    rw [hfull2]
    dsimp only
    refine ⟨rfl, ?_, ?_⟩
    · simp [elOkS, hv.2.1, htl.2.1]
    · simp [noHolesS, hv.2.2, htl.2.2]
  | Slots.cons Slot.hole tl => by
    intro _ hnh
    simp [noHolesS] at hnh
end

theorem hideV_run (cfg : Cfg) (st : St) (items : Items) (e : El)
    (hok : elOkV (View.mk cfg st items) = true) (hnh : noHolesV (View.mk cfg st items) = true)
    (hr : st.rendered = true) (hel : st.el = some e)
    (hap : hookApproves cfg.beforeHideRet = true) :
    ∃ items2 lg, hideV (View.mk cfg st items) =
      StepRes.mk
        (View.mk cfg
          { st with displayCssValue := e.display, el := some { e with display := "none" } }
          items2) lg (JsOutcome.norm ()) ∧
      elOkI items2 = true ∧ noHolesI items2 = true := by
  simp only [elOkV, Bool.and_eq_true] at hok
  simp only [noHolesV] at hnh
  unfold hideV
  cases items with
  | jsNull =>
    refine ⟨Items.jsNull, [Ev.trig cfg.className "beforehide" "",
      Ev.trig cfg.className "hide" ""], ?_, rfl, rfl⟩
    rw [hr, hap]
    simp only [if_true]
    rw [hel]
    simp
  | arr l =>
    have hl := hideSlots_ok l (by simpa [elOkI] using hok.2) (by simpa [noHolesI] using hnh)
    have hfull : hideSlots l = SlotsRes.mk (hideSlots l).slots (hideSlots l).log
        (JsOutcome.norm ()) := by
      rw [← hl.1]
    refine ⟨Items.arr (hideSlots l).slots,
      [Ev.trig cfg.className "beforehide" ""] ++ (hideSlots l).log ++
        [Ev.trig cfg.className "hide" ""], ?_,
      by simpa [elOkI] using hl.2.1, by simpa [noHolesI] using hl.2.2⟩
    rw [hr, hap]
    simp only [if_true]
    rw [hfull]
    dsimp only
    rw [hel]

theorem showV_run (cfg : Cfg) (st : St) (items : Items) (e : El)
    (hok : elOkV (View.mk cfg st items) = true) (hnh : noHolesV (View.mk cfg st items) = true)
    (hr : st.rendered = true) (hel : st.el = some e)
    (hap : hookApproves cfg.beforeShowRet = true) :
    ∃ items2 lg, showV (View.mk cfg st items) =
      StepRes.mk
        (View.mk cfg { st with el := some { e with display := st.displayCssValue } } items2)
        lg (JsOutcome.norm ()) ∧
      elOkI items2 = true ∧ noHolesI items2 = true := by
  simp only [elOkV, Bool.and_eq_true] at hok
  simp only [noHolesV] at hnh
  unfold showV
  cases items with
  | jsNull =>
    refine ⟨Items.jsNull, [Ev.trig cfg.className "beforeshow" "",
      Ev.trig cfg.className "show" ""], ?_, rfl, rfl⟩
    rw [hr, hap]
    simp only [if_true]
    rw [hel]
    simp
  | arr l =>
    have hl := showSlots_ok l (by simpa [elOkI] using hok.2) (by simpa [noHolesI] using hnh)
    have hfull : showSlots l = SlotsRes.mk (showSlots l).slots (showSlots l).log
        (JsOutcome.norm ()) := by
      rw [← hl.1]
    refine ⟨Items.arr (showSlots l).slots,
      [Ev.trig cfg.className "beforeshow" ""] ++ (showSlots l).log ++
        [Ev.trig cfg.className "show" ""], ?_,
      by simpa [elOkI] using hl.2.1, by simpa [noHolesI] using hl.2.2⟩
    rw [hr, hap]
    simp only [if_true]
    rw [hfull]
    dsimp only
    rw [hel]

/-- CLAIM C7: on a rendered node (in a hole-free tree whose rendered
views hold their element handles, with both hooks approving), hide
captures the current display value and blanks the display with none,
and a following show restores exactly the captured value, whatever it
was (not a hardcoded default). -/
theorem c7_hide_show_restores_display (cfg : Cfg) (st : St) (items : Items) (e : El)
    (hok : elOkV (View.mk cfg st items) = true) (hnh : noHolesV (View.mk cfg st items) = true)
    (hr : st.rendered = true) (hel : st.el = some e)
    (hapH : hookApproves cfg.beforeHideRet = true)
    (hapS : hookApproves cfg.beforeShowRet = true) :
    (hideV (View.mk cfg st items)).view.stOf.displayCssValue = e.display ∧
    (hideV (View.mk cfg st items)).view.stOf.el = some { e with display := "none" } ∧
    ∃ e2, (showV (hideV (View.mk cfg st items)).view).view.stOf.el = some e2 ∧
      e2.display = e.display := by
  obtain ⟨items2, lg, hrun, hoki, hnhi⟩ := hideV_run cfg st items e hok hnh hr hel hapH
  rw [hrun]
  dsimp only [View.stOf]
  refine ⟨rfl, rfl, ?_⟩
  obtain ⟨items3, lg3, hrun3, hoki3, hnhi3⟩ := showV_run cfg
    { st with displayCssValue := e.display, el := some { e with display := "none" } }
    items2 { e with display := "none" }
    (by simp [elOkV, hoki]) (by simp [noHolesV, hnhi]) (by simpa using hr) rfl hapS
  rw [hrun3]
  dsimp only [View.stOf]
  exact ⟨{ e with display := e.display }, rfl, rfl⟩

/-- Witness for C7 on a rendered leaf displayed as grid. -/
theorem c7_hide_show_restores_display_witness :
    (elOkV (View.mk demoCfg demoStGrid Items.jsNull) = true ∧
     noHolesV (View.mk demoCfg demoStGrid Items.jsNull) = true ∧
     demoStGrid.rendered = true ∧
     demoStGrid.el = some { len := 1, display := "grid", content := [] } ∧
     hookApproves demoCfg.beforeHideRet = true ∧
     hookApproves demoCfg.beforeShowRet = true) ∧
    ((hideV (View.mk demoCfg demoStGrid Items.jsNull)).view.stOf.displayCssValue = "grid" ∧
     ∃ e2, (showV (hideV (View.mk demoCfg demoStGrid Items.jsNull)).view).view.stOf.el =
         some e2 ∧ e2.display = "grid") := by
  have h := c7_hide_show_restores_display demoCfg demoStGrid Items.jsNull
    { len := 1, display := "grid", content := [] }
    (by decide) (by decide) (by decide) (by rfl) (by decide) (by decide)
  exact ⟨⟨by decide, by decide, by decide, by rfl, by decide, by decide⟩, h.1, h.2.2⟩

mutual
/-- On a hole-free tree, clear always completes normally (whether or
not the individual clear hooks approve). -/
theorem clearV_norm : (v : View) → noHolesV v = true → (clearV v).out = JsOutcome.norm ()
  | View.mk cfg st items => by
    intro hnh
    simp only [noHolesV] at hnh
    unfold clearV
    by_cases hr : st.rendered = true
    case neg =>
      simp only [Bool.not_eq_true] at hr
      simp [hr]
    by_cases hap : hookApproves cfg.beforeClearRet = true
    case neg =>
      simp only [Bool.not_eq_true] at hap
      simp [hr, hap]
    cases items with
    | jsNull =>
      rw [hr, hap]
      simp only [if_true]
      unfold clearFinish
      split <;> rfl
    | arr l =>
      have hl := clearSlots_norm l (by simpa [noHolesI] using hnh)
      have hfull : clearSlots l = SlotsRes.mk (clearSlots l).slots (clearSlots l).log
          (JsOutcome.norm ()) := by
        rw [← hl]
      rw [hr, hap]
      simp only [if_true]
      rw [hfull]
      dsimp only
      unfold clearFinish
      split <;> rfl

theorem clearSlots_norm : (l : Slots) → noHolesS l = true →
    (clearSlots l).out = JsOutcome.norm ()
  | Slots.nil => by intro _; rfl
  | Slots.cons (Slot.live v) tl => by
    intro hnh
    simp only [noHolesS, Bool.and_eq_true] at hnh
    have hv := clearV_norm v hnh.1
    have htl := clearSlots_norm tl hnh.2
    unfold clearSlots
    have hfull : clearV v = StepRes.mk (clearV v).view (clearV v).log (JsOutcome.norm ()) := by
      rw [← hv]
    rw [hfull]
    dsimp only
    have hfull2 : clearSlots tl = SlotsRes.mk (clearSlots tl).slots (clearSlots tl).log
        (JsOutcome.norm ()) := by
      rw [← htl]
    rw [hfull2]
  | Slots.cons Slot.hole tl => by
    intro hnh
    simp [noHolesS] at hnh
end

mutual
/-- Clearing preserves the configuration, the hole pattern, the
destroy-hook approval pattern, the length and null-ness of items and
the list of child destroy notifications. -/
theorem clearV_pres : (v : View) →
    (clearV v).view.cfgOf = v.cfgOf ∧
    noHolesV (clearV v).view = noHolesV v ∧
    dApprovesV (clearV v).view = dApprovesV v ∧
    itemsLength (clearV v).view.itemsOf = itemsLength v.itemsOf ∧
    destroyEvsI (clearV v).view.itemsOf = destroyEvsI v.itemsOf ∧
    itemsIsNull (clearV v).view.itemsOf = itemsIsNull v.itemsOf
  | View.mk cfg st items => by
    unfold clearV
    by_cases hr : st.rendered = true
    case neg =>
      simp only [Bool.not_eq_true] at hr
      simp [hr]
    by_cases hap : hookApproves cfg.beforeClearRet = true
    case neg =>
      simp only [Bool.not_eq_true] at hap
      simp [hr, hap]
    cases items with
    | jsNull =>
      rw [hr, hap]
      simp only [if_true]
      unfold clearFinish
      split <;>
        simp [View.cfgOf, View.itemsOf, noHolesV, dApprovesV, itemsLength, destroyEvsI,
          itemsIsNull]
    | arr l =>
      have hl := clearSlots_pres l
      rw [hr, hap]
      simp only [if_true]
      split
      · simp [View.cfgOf, View.itemsOf, noHolesV, dApprovesV, itemsLength, destroyEvsI,
          itemsIsNull, noHolesI, dApprovesI, hl.1, hl.2.1, hl.2.2.1, hl.2.2.2]
      · unfold clearFinish
        split <;>
          simp [View.cfgOf, View.itemsOf, noHolesV, dApprovesV, itemsLength, destroyEvsI,
            itemsIsNull, noHolesI, dApprovesI, hl.1, hl.2.1, hl.2.2.1, hl.2.2.2]

theorem clearSlots_pres : (l : Slots) →
    noHolesS (clearSlots l).slots = noHolesS l ∧
    dApprovesS (clearSlots l).slots = dApprovesS l ∧
    Slots.length (clearSlots l).slots = Slots.length l ∧
    destroyEvsS (clearSlots l).slots = destroyEvsS l
  | Slots.nil => by exact ⟨rfl, rfl, rfl, rfl⟩
  | Slots.cons (Slot.live v) tl => by
    have hv := clearV_pres v
    have htl := clearSlots_pres tl
    unfold clearSlots
    rcases hout : (clearV v).out with a | m <;>
      simp [hout, noHolesS, dApprovesS, Slots.length, destroyEvsS, hv.1, hv.2.1, hv.2.2.1,
        htl.1, htl.2.1, htl.2.2.1, htl.2.2.2]
  | Slots.cons Slot.hole tl => by exact ⟨rfl, rfl, rfl, rfl⟩
end

theorem noHolesV_eq (v : View) : noHolesV v = noHolesI v.itemsOf := by
  cases v
  rfl

theorem dApprovesV_eq (v : View) :
    dApprovesV v = (hookApproves v.cfgOf.beforeDestroyRet && dApprovesI v.itemsOf) := by
  cases v
  rfl

theorem destroyEvsI_eq (v : View) : destroyEvsI (View.itemsOf v) = destroyEvsI v.itemsOf := rfl

theorem destroySlots_go : (l : Slots) →
    (∀ y : View, View.shape y + 1 ≤ Slots.shape l → noHolesV y = true →
      dApprovesV y = true → DestroySpec y) →
    noHolesS l = true → dApprovesS l = true →
    (destroySlots l).out = JsOutcome.norm () ∧
    Slots.allHoles (destroySlots l).slots = true ∧
    Slots.length (destroySlots l).slots = Slots.length l ∧
    (destroyEvsS l).Sublist (destroySlots l).log
  | Slots.nil => by
    intro _ _ _
    have h : destroySlots Slots.nil = SlotsRes.mk Slots.nil [] (JsOutcome.norm ()) := by
      unfold destroySlots
      rfl
    rw [h]
    exact ⟨rfl, rfl, rfl, by simp [destroyEvsS]⟩
  | Slots.cons (Slot.live v) tl => by
    intro hchild hnh hap
    simp only [noHolesS, dApprovesS, Bool.and_eq_true] at hnh hap
    have hv : DestroySpec v := by
      apply hchild v ?_ hnh.1 hap.1
      simp only [Slots.shape, Slot.shape]
      omega
    have htl := destroySlots_go tl
      (fun y hy hn ha => by
        apply hchild y ?_ hn ha
        simp only [Slots.shape, Slot.shape] at hy ⊢
        omega)
      hnh.2 hap.2
    obtain ⟨hout, hpre, hsub, hlen0, hall0, hnull0⟩ := hv
    unfold destroySlots
    have hfull : destroyV v =
        StepRes.mk (destroyV v).view (destroyV v).log (JsOutcome.norm ()) := by
      rw [← hout]
    rw [hfull]
    dsimp only
    refine ⟨htl.1, ?_, ?_, ?_⟩
    · simpa [Slots.allHoles] using htl.2.1
    · simpa [Slots.length] using htl.2.2.1
    · simp only [destroyEvsS]
      have h1 : [Ev.trig v.cfgOf.className "destroy" ""].Sublist (destroyV v).log := by
        obtain ⟨pre, hpe⟩ := hpre
        rw [hpe]
        simp
      have h2 := htl.2.2.2
      have := List.Sublist.append h1 h2
      simpa using this
  | Slots.cons Slot.hole tl => by
    intro _ hnh _
    simp [noHolesS] at hnh

theorem destroy_go : ∀ n : Nat, ∀ v : View, View.shape v ≤ n → noHolesV v = true →
    dApprovesV v = true → DestroySpec v := by
  intro n
  induction n with
  | zero =>
    intro v hs _ _
    exfalso
    cases v
    simp [View.shape] at hs
  | succ m ih =>
    intro v hs hnh hap
    cases v with
    | mk cfg st items =>
      have happ : hookApproves cfg.beforeDestroyRet = true := by
        rw [dApprovesV_eq] at hap
        simp only [Bool.and_eq_true] at hap
        exact hap.1
      have hpres := clearV_pres (View.mk cfg st items)
      have hnorm := clearV_norm (View.mk cfg st items) hnh
      have hshape := clearV_shape (View.mk cfg st items)
      unfold DestroySpec
      unfold destroyV
      simp only [happ, if_true]
      split
      · rename_i v1 cllog clout hcl
        rw [hnorm] at clout
        simp at clout
      split
      · rename_i hit
        have hevs : destroyEvsI (View.itemsOf (View.mk cfg st items)) = [] := by
          have h1 := hpres.2.2.2.2.1
          rw [hit] at h1
          exact h1.symm
        refine ⟨rfl, ⟨[Ev.trig cfg.className "beforedestroy" "", Ev.observeOff cfg.className]
          ++ (clearV (View.mk cfg st items)).log, by simp [View.cfgOf]⟩, ?_, ?_, ?_, ?_⟩
        · rw [hevs]
          simp [View.cfgOf, List.singleton_sublist]
        · exact hpres.2.2.2.1
        · rw [hit]
          rfl
        · exact hpres.2.2.2.2.2
      · rename_i l hit
        have hnhl : noHolesS l = true := by
          have h1 := hpres.2.1
          rw [noHolesV_eq (clearV (View.mk cfg st items)).view, hit] at h1
          simp only [noHolesI] at h1
          rw [h1]
          exact hnh
        have hapl : dApprovesS l = true := by
          have h1 := hpres.2.2.1
          rw [dApprovesV_eq (clearV (View.mk cfg st items)).view, hit] at h1
          simp only [dApprovesI] at h1
          have h2 : (hookApproves (clearV (View.mk cfg st items)).view.cfgOf.beforeDestroyRet
              && dApprovesS l) = true := by
            rw [h1]
            exact hap
          simp only [Bool.and_eq_true] at h2
          exact h2.2
        have hsl : Slots.shape l + 2 ≤ m + 1 := by
          have h1 := View.shape_eq (clearV (View.mk cfg st items)).view
          rw [hit] at h1
          simp only [Items.shape] at h1
          have h2 : View.shape (View.mk cfg st items) ≤ m + 1 := hs
          omega
        have htl := destroySlots_go l
          (fun y hy hn ha => ih y (by omega) hn ha)
          hnhl hapl
        have hfull2 : destroySlots l = SlotsRes.mk (destroySlots l).slots
            (destroySlots l).log (JsOutcome.norm ()) := by
          rw [← htl.1]
        rw [hfull2]
        dsimp only
        refine ⟨rfl, ⟨[Ev.trig cfg.className "beforedestroy" "", Ev.observeOff cfg.className]
          ++ (clearV (View.mk cfg st items)).log ++ (destroySlots l).log,
          by simp [View.cfgOf]⟩, ?_, ?_, ?_, ?_⟩
        · have hevs : destroyEvsS l = destroyEvsI (View.itemsOf (View.mk cfg st items)) := by
            have h1 := hpres.2.2.2.2.1
            rw [hit] at h1
            simpa only [destroyEvsI] using h1
          rw [← hevs]
          have h1 : List.Sublist (destroyEvsS l)
              (([Ev.trig cfg.className "beforedestroy" "", Ev.observeOff cfg.className]
                ++ (clearV (View.mk cfg st items)).log) ++ (destroySlots l).log) :=
            htl.2.2.2.trans (List.sublist_append_right _ _)
          have h2 : List.Sublist [Ev.undelegate cfg.className]
              [Ev.undelegate cfg.className, Ev.trig cfg.className "destroy" ""] := by
            simp
          have h3 := List.Sublist.append h1 h2
          simpa [View.cfgOf] using h3
        · have h1 := hpres.2.2.2.1
          rw [hit] at h1
          simp only [itemsLength] at h1
          simp only [View.itemsOf, itemsLength]
          rw [htl.2.2.1]
          exact h1
        · simp only [View.itemsOf, itemsAllHoles]
          exact htl.2.1
        · have h1 := hpres.2.2.2.2.2
          rw [hit] at h1
          simp only [itemsIsNull] at h1
          simp only [View.itemsOf, itemsIsNull]
          exact h1

/-- CLAIM C5 (amended): on every view whose destroy hooks all approve
and whose items arrays carry no deleted holes, destroy completes
normally; the children are destroyed first, in declaration order, before
the view detaches its own DOM event bindings (their destroy
notifications, followed by the own undelegate step, embed in order into
the log, which ends with that undelegate step and the own destroy
notification); but afterwards the items sequence is not empty: it keeps
its null-ness and its full length, with every slot turned into a deleted
hole. -/
theorem c5_destroy_order_amended (v : View) (hnh : noHolesV v = true)
    (hap : dApprovesV v = true) : DestroySpec v :=
  destroy_go (View.shape v) v le_rfl hnh hap

/-- Witness instantiating the amended destroy contract on a parent with
two live leaf children. -/
theorem c5_destroy_order_amended_witness :
    noHolesV (View.mk demoCfg initialSt (Items.arr demoSlots2)) = true ∧
    dApprovesV (View.mk demoCfg initialSt (Items.arr demoSlots2)) = true ∧
    DestroySpec (View.mk demoCfg initialSt (Items.arr demoSlots2)) :=
  ⟨by decide, by decide,
    c5_destroy_order_amended (View.mk demoCfg initialSt (Items.arr demoSlots2))
      (by decide) (by decide)⟩

/-- Counterexample to the original claim: destroying a parent with one
live child completes normally, yet afterwards the items sequence is not
empty — the child slot remains as a deleted hole and the array length
stays 1 (`delete items[i]` leaves a hole, and `this.items` is never
reset). -/
theorem c5_items_not_empty_cex :
    (destroyV (View.mk demoCfg initialSt
      (Items.arr (Slots.cons (Slot.live demoChild) Slots.nil)))).out = JsOutcome.norm () ∧
    (destroyV (View.mk demoCfg initialSt
      (Items.arr (Slots.cons (Slot.live demoChild) Slots.nil)))).view.itemsOf =
      Items.arr (Slots.cons Slot.hole Slots.nil) ∧
    itemsLength (destroyV (View.mk demoCfg initialSt
      (Items.arr (Slots.cons (Slot.live demoChild) Slots.nil)))).view.itemsOf = 1 := by
  refine ⟨?_, ?_, ?_⟩
  all_goals unfold destroyV destroySlots
  all_goals unfold destroyV destroySlots
  all_goals rfl

end ViewSpec





